import Mathlib

/-!
Verification development for the hashquery model-IR and SQL compiler.

The Python source is shallowly embedded: datatypes become inductive types,
methods become functions, fallible code returns `Except`, and the mutable
builder pattern is modelled with an explicit heap of model objects.

Modelling conventions used throughout:

* Python `datetime.datetime` is represented by its count of microseconds
  since the epoch (`PyDatetime.us`); `datetime.date` by a count of days
  (`PyDate.days`); `datetime.timedelta` by total microseconds
  (`PyTimedelta.us`).  `isoformat`/`fromisoformat` form an exact inverse
  pair in Python, so the wire encoding of a datetime is modelled as a
  tagged leaf carrying the value itself (`Wire.taggedDatetime`), standing
  for the record `\x7b"$typeKey": "py.datetime", "iso": <iso-string>\x7d`.
  The timedelta encoding stores `int(value.total_seconds())`, which
  truncates toward zero exactly as `Int.tdiv` does; this is the one lossy
  primitive encoding and it is modelled faithfully.
* Python `float` values are carried opaquely (by their repr string): no
  claim in this development computes with floats.
* Python dicts preserve insertion order, so dict-valued fields are
  association lists.
-/

namespace Hashquery

/-- The supported warehouse dialects (`run/db/dialect.py`). -/
inductive SqlDialect where
  | athena | bigquery | clickhouse | databricks | duckdb
  | mysql | postgres | redshift | snowflake
deriving DecidableEq, Repr

/-- Unit of a `timeinterval` (`utils/timeinterval.py`). -/
inductive TimeUnit where
  | years | months | days | hours | minutes | seconds
deriving DecidableEq, Repr

/-- A `timeinterval(unit=…, num=…)` value (`utils/timeinterval.py`). -/
structure Timeinterval where
  unit : TimeUnit
  num : Int
deriving DecidableEq, Repr

/-- A `datetime.datetime`, as microseconds since the epoch. -/
structure PyDatetime where
  us : Int
deriving DecidableEq, Repr

/-- A `datetime.date`, as days since the epoch. -/
structure PyDate where
  days : Int
deriving DecidableEq, Repr

/-- A `datetime.timedelta`, as total microseconds. -/
structure PyTimedelta where
  us : Int
deriving DecidableEq, Repr

/-- Microseconds per second, day. -/
def usPerSecond : Int := 1000000

def usPerDay : Int := 86400 * usPerSecond

/-- The value of `int(timedelta.total_seconds())`: truncation toward zero,
as performed by `Serializable._primitive_to_wire_format`. -/
def PyTimedelta.wholeSeconds (t : PyTimedelta) : Int :=
  t.us.tdiv usPerSecond

/-- A Python literal value as storable in a `PyValueColumnExpression`. -/
inductive PyLit where
  | none
  | bool (b : Bool)
  | int (n : Int)
  | float (repr : String)
  | str (s : String)
  | list (xs : List PyLit)
  | datetime (d : PyDatetime)
  | date (d : PyDate)
  | timedelta (t : PyTimedelta)
  | timeinterval (ti : Timeinterval)
deriving Repr

/-- A value of a `BinaryOpColumnExpression.options` entry
(`Dict[str, Union[str, bool]]`). -/
inductive OptVal where
  | str (s : String)
  | bool (b : Bool)
deriving DecidableEq, Repr

/-! ## Gregorian-calendar helpers

Used to embed `dateutil.relativedelta` shifts (for `timeinterval` values)
over the microsecond representation of datetimes.  The algorithms are the
standard civil-calendar conversions. -/

/-- Whether a (proleptic Gregorian) year is a leap year. -/
def isLeapYear (y : Int) : Bool :=
  y % 4 == 0 && (y % 100 != 0 || y % 400 == 0)

/-- Days in a given month (1-12) of a given year. -/
def daysInMonth (y : Int) (m : Int) : Int :=
  if m == 2 then (if isLeapYear y then 29 else 28)
  else if m == 4 || m == 6 || m == 9 || m == 11 then 30
  else 31

/-- Convert a day count (days since 1970-01-01) to a civil date (y, m, d). -/
def civilFromDays (z0 : Int) : Int × Int × Int :=
  let z := z0 + 719468
  let era := (if z ≥ 0 then z else z - 146096).fdiv 146097
  let doe := z - era * 146097
  let yoe := (doe - doe.fdiv 1460 + doe.fdiv 36524 - doe.fdiv 146096).fdiv 365
  let y := yoe + era * 400
  let doy := doe - (365 * yoe + yoe.fdiv 4 - yoe.fdiv 100)
  let mp := (5 * doy + 2).fdiv 153
  let d := doy - (153 * mp + 2).fdiv 5 + 1
  let m := mp + (if mp < 10 then 3 else -9)
  (y + (if m ≤ 2 then 1 else 0), m, d)

/-- Convert a civil date (y, m, d) to a day count since 1970-01-01. -/
def daysFromCivil (y0 m d : Int) : Int :=
  let y := y0 - (if m ≤ 2 then 1 else 0)
  let era := (if y ≥ 0 then y else y - 399).fdiv 400
  let yoe := y - era * 400
  let mp := m + (if m > 2 then -3 else 9)
  let doy := (153 * mp + 2).fdiv 5 + d - 1
  let doe := yoe * 365 + yoe.fdiv 4 - yoe.fdiv 100 + doy
  era * 146097 + doe - 719468

/-- Shift a civil day count by a number of months, clamping the day of
month to the end of the target month (the `relativedelta` behavior). -/
def shiftDaysByMonths (days : Int) (months : Int) : Int :=
  let (y, m, d) := civilFromDays days
  let total := y * 12 + (m - 1) + months
  let y' := total.fdiv 12
  let m' := total - y' * 12 + 1
  let d' := min d (daysInMonth y' m')
  daysFromCivil y' m' d'

/-- Apply a `relativedelta(**{unit: num})` shift to a datetime, as
`_try_lift_binary_op` does for `timeinterval` operands
(`run/compile/utils/datetime.py`). -/
def PyDatetime.addInterval (dt : PyDatetime) (ti : Timeinterval) : PyDatetime :=
  match ti.unit with
  | .seconds => ⟨dt.us + ti.num * usPerSecond⟩
  | .minutes => ⟨dt.us + ti.num * 60 * usPerSecond⟩
  | .hours => ⟨dt.us + ti.num * 3600 * usPerSecond⟩
  | .days => ⟨dt.us + ti.num * usPerDay⟩
  | .months =>
    let dayPart := dt.us.fdiv usPerDay
    let usOfDay := dt.us - dayPart * usPerDay
    ⟨shiftDaysByMonths dayPart ti.num * usPerDay + usOfDay⟩
  | .years =>
    let dayPart := dt.us.fdiv usPerDay
    let usOfDay := dt.us - dayPart * usPerDay
    ⟨shiftDaysByMonths dayPart (ti.num * 12) * usPerDay + usOfDay⟩

/-- Add a timedelta to a datetime (`datetime + timedelta` in Python). -/
def PyDatetime.addTimedelta (dt : PyDatetime) (t : PyTimedelta) : PyDatetime :=
  ⟨dt.us + t.us⟩

/-- Add a timedelta to a date: Python uses only the (floored) day count of
the normalized timedelta. -/
def PyDate.addTimedelta (d : PyDate) (t : PyTimedelta) : PyDate :=
  ⟨d.days + t.us.fdiv usPerDay⟩

/-- Apply a `relativedelta` shift to a date.  dateutil first normalizes
time units by carrying whole days out (sign-aware `divmod`); when the
remaining time part is non-zero (`_has_time`), it promotes the date to a
midnight `datetime` before adding, so the result is a `datetime`;
otherwise the result stays a `date`. -/
def PyDate.addInterval (d : PyDate) (ti : Timeinterval) : PyLit :=
  match ti.unit with
  | .seconds =>
    if ti.num.emod 86400 == 0 then .date ⟨d.days + ti.num.tdiv 86400⟩
    else .datetime ⟨d.days * usPerDay + ti.num * usPerSecond⟩
  | .minutes =>
    if ti.num.emod 1440 == 0 then .date ⟨d.days + ti.num.tdiv 1440⟩
    else .datetime ⟨d.days * usPerDay + ti.num * 60 * usPerSecond⟩
  | .hours =>
    if ti.num.emod 24 == 0 then .date ⟨d.days + ti.num.tdiv 24⟩
    else .datetime ⟨d.days * usPerDay + ti.num * 3600 * usPerSecond⟩
  | .days => .date ⟨d.days + ti.num⟩
  | .months => .date ⟨shiftDaysByMonths d.days ti.num⟩
  | .years => .date ⟨shiftDaysByMonths d.days (ti.num * 12)⟩

/-! ## Connections and linked resources

`model/connection/*.py`, `utils/resource.py`.  Secret payloads are held
behind opaque handles (`Unit` here): the source serializes every secret to
the fixed placeholder string `"[secret]"`. -/

/-- A reference to an external resource (`utils/resource.py`). -/
structure LinkedResource where
  id : String
  aliasName : Option String
  projectId : String
deriving DecidableEq, Repr

/-- The `Connection` sum type (`model/connection/`). Secret payloads are
opaque `Unit` handles. -/
inductive Connection where
  | duckdb (tableMap : List (String × Option Unit)) (duckdbConfig : Option Unit)
  | bigquery (credentialsPath : Option String) (credentialsInfo : Option Unit)
      (location : Option String)
  | hashboardData (id : String) (projectId : String) (name : Option String)
      (credentials : Option Unit)
deriving DecidableEq, Repr

/-! ## The IR: column expressions, sources, namespaces, models

`model/column_expression/*.py`, `model/source/*.py`, `model/namespace.py`,
`model/activity_schema.py`, `model/model.py`.  Every column expression
carries its `_manually_set_identifier` (`msi`). -/

mutual

/-- The `ColumnExpression` sum type. -/
inductive ColumnExpression where
  | columnName (msi : Option String) (columnName : String)
      (namespaceIdentifier : Option String)
  | sqlText (msi : Option String) (sql : String)
      (namespaceIdentifier : Option String)
      (nestedExpressions : List (String × ColumnExpression))
  | pyValue (msi : Option String) (value : PyLit)
  | binaryOp (msi : Option String) (left : ColumnExpression)
      (right : ColumnExpression) (op : String)
      (options : List (String × OptVal))
  | cases (msi : Option String)
      (cs : List (ColumnExpression × ColumnExpression))
      (other : ColumnExpression)
  | granularity (msi : Option String) (base : ColumnExpression)
      (grain : String)
  | formatTimestamp (msi : Option String) (base : ColumnExpression)
      (format : String)
  | sqlFunction (msi : Option String) (functionName : String)
      (args : List FnArg) (inheritIdentifier : Bool)
  | subquery (msi : Option String) (model : Model)

/-- An argument of a `SqlFunctionColumnExpression`: either a column
expression or a raw Python value passed through untouched. -/
inductive FnArg where
  | expr (e : ColumnExpression)
  | lit (v : PyLit)

/-- The `Source` sum type. -/
inductive Source where
  | tableName (table : String) (schema : Option String)
  | sqlTextSrc (sql : String)
  | pick (base : Source) (columns : List ColumnExpression)
  | filterSrc (base : Source) (condition : ColumnExpression)
  | sortSrc (base : Source) (sortBy : ColumnExpression) (dir : String)
      (nulls : String)
  | limitSrc (base : Source) (lim : Int) (offset : Int)
  | aggregate (base : Source) (groups : List ColumnExpression)
      (measures : List ColumnExpression)
  | joinOne (base : Source) (relation : ModelNamespace)
      (joinCondition : ColumnExpression) (dropUnmatched : Bool)
  | union (base : Source) (unionSource : Source)
  | matchSteps (base : Source) (activitySchema : ModelActivitySchema)
      (steps : List ColumnExpression)
      (partitionStartEvents : List ColumnExpression)
      (timeLimit : Option PyTimedelta)

/-- A joined relation namespace (`model/namespace.py`). -/
inductive ModelNamespace where
  | mk (identifier : String) (nestedModel : Model)
      (throughForeignKeyAttr : Option ColumnExpression)

/-- The activity-schema triple (`model/activity_schema.py`). -/
inductive ModelActivitySchema where
  | mk (group : ColumnExpression) (timestamp : ColumnExpression)
      (eventKey : ColumnExpression)

/-- A `Model`: connection + source plan + attribute/measure/namespace maps
+ primary key + activity schema + custom metadata (`model/model.py`).
`IdentifiableMap`s are stored as their insertion-ordered backing lists. -/
inductive Model where
  | mk (connection : Option Connection) (source : Option Source)
      (attributes : List ColumnExpression)
      (measures : List ColumnExpression)
      (namespaces : List ModelNamespace)
      (primaryKey : ColumnExpression)
      (activitySchema : Option ModelActivitySchema)
      (customMeta : List (String × PyLit))
      (linkedResource : Option LinkedResource)

end

/-! ## Identifier utilities (`utils/identifier.py`) -/

/-- Python `str.isidentifier()` (restricted to ASCII, as used on SQL
token text). -/
def isPyIdentifier (s : String) : Bool :=
  match s.data with
  | [] => false
  | c :: rest => (c.isAlpha || c == '_') && rest.all (fun c => c.isAlphanum || c == '_')

/-- The `is_double_underscore_name` check: full match of `__.+__\d*`.
Implemented on the character list (stripping the trailing digits and
requiring a dunder-wrapped non-empty core). -/
def isDoubleUnderscoreName (s : String) : Bool :=
  let t := (s.data.reverse.dropWhile Char.isDigit).reverse
  match t with
  | '_' :: '_' :: rest =>
    (decide (rest.length ≥ 3)) &&
      (match rest.reverse with
        | '_' :: '_' :: _ => true
        | _ => false)
  | _ => false

/-- Python truthiness of an optional string (`None` and `""` are falsy). -/
def truthyStr : Option String → Bool
  | some s => !s.data.isEmpty
  | none => false

/-! ## Python exceptions raised by the embedded code -/

/-- The exceptions the embedded fragments can raise. -/
inductive PyErr where
  | indexError
  | keyError (key : String)
  | valueError (msg : String)
  | assertionError (msg : String)
  | attributeError
  | userCompilationError (msg : String)
  | wireVersionError (expected : Int) (found : Option Int)
deriving DecidableEq, Repr

/-! ## The wire format (`utils/serializable.py`)

`Wire` is the JSON-shaped value produced by `to_wire_format`.  Tagged
primitive records (`\x7b"$typeKey": "py.datetime", …\x7d`) are single
constructors carrying the decoded payload: `isoformat`/`fromisoformat`
are exact inverses in Python, so nothing is lost by this; the timedelta
record carries the (truncating) `int(total_seconds())` it stores.  The
`raw*` constructors stand for Python objects that are placed into a wire
payload without any encoding (function arguments and list elements are
passed through untouched by the source). -/

inductive Wire where
  | null
  | bool (b : Bool)
  | int (n : Int)
  | float (repr : String)
  | str (s : String)
  | arr (xs : List Wire)
  | obj (fields : List (String × Wire))
  | rawDatetime (d : PyDatetime)
  | rawDate (d : PyDate)
  | rawTimedelta (t : PyTimedelta)
  | rawTimeinterval (ti : Timeinterval)
  | taggedDatetime (d : PyDatetime)
  | taggedDate (d : PyDate)
  | taggedTimedelta (seconds : Int)
  | taggedTimeinterval (unit : TimeUnit) (num : Int)
deriving Repr

/-- The current wire schema version (`HASHQUERY_WIRE_VERSION`). -/
def HASHQUERY_WIRE_VERSION : Int := 6

/-- Encode an optional string (Python `None` becomes JSON null). -/
def optStrWire : Option String → Wire
  | some s => Wire.str s
  | none => Wire.null

/-- The fixed secret placeholder (`Secret.PLACEHOLDER`). -/
def SECRET_PLACEHOLDER : String := "[secret]"

mutual

/-- A Python value placed into a wire payload with no encoding. -/
def rawToWire : PyLit → Wire
  | .none => .null
  | .bool b => .bool b
  | .int n => .int n
  | .float r => .float r
  | .str s => .str s
  | .list xs => .arr (rawListToWire xs)
  | .datetime d => .rawDatetime d
  | .date d => .rawDate d
  | .timedelta t => .rawTimedelta t
  | .timeinterval ti => .rawTimeinterval ti

def rawListToWire : List PyLit → List Wire
  | [] => []
  | v :: rest => rawToWire v :: rawListToWire rest

end

/-- `Serializable._primitive_to_wire_format`: datetimes, dates, timedeltas
and timeintervals become tagged records; everything else is passed
through directly. -/
def primToWire : PyLit → Wire
  | .datetime d => .taggedDatetime d
  | .date d => .taggedDate d
  | .timedelta t => .taggedTimedelta t.wholeSeconds
  | .timeinterval ti => .taggedTimeinterval ti.unit ti.num
  | v => rawToWire v

mutual

/-- Decode a Python value that was placed into a wire payload raw.  This
is the identity in Python; here it inverts `rawToWire`.  Wire shapes that
are not the raw image of a `PyLit` (e.g. objects) cannot arise from
serializing a `PyLit` and are rejected. -/
def rawFromWire : Wire → Except PyErr PyLit
  | .null => .ok .none
  | .bool b => .ok (.bool b)
  | .int n => .ok (.int n)
  | .float r => .ok (.float r)
  | .str s => .ok (.str s)
  | .arr xs => do
    let vs ← rawListFromWire xs
    .ok (.list vs)
  | .rawDatetime d => .ok (.datetime d)
  | .rawDate d => .ok (.date d)
  | .rawTimedelta t => .ok (.timedelta t)
  | .rawTimeinterval ti => .ok (.timeinterval ti)
  | _ => .error (.valueError "unexpected wire value")

def rawListFromWire : List Wire → Except PyErr (List PyLit)
  | [] => .ok []
  | w :: rest => do
    let v ← rawFromWire w
    let vs ← rawListFromWire rest
    .ok (v :: vs)

end

/-- `Serializable._primitive_from_wire_format`: decode a tagged record if
one is present, otherwise return the value unchanged.  The timedelta
record rebuilds `timedelta(seconds=N)`. -/
def primFromWire : Wire → Except PyErr PyLit
  | .taggedDatetime d => .ok (.datetime d)
  | .taggedDate d => .ok (.date d)
  | .taggedTimedelta secs => .ok (.timedelta ⟨secs * usPerSecond⟩)
  | .taggedTimeinterval u n => .ok (.timeinterval ⟨u, n⟩)
  | w => rawFromWire w

/-! ## Identifiers of column expressions

`default_identifier` per variant, the `_optional_identifier` property and
the `identifier` property (`model/column_expression/*.py`).  All are
`Except`-valued because the source can raise: `SqlTextColumnExpression`
indexes `tokens[1]` out of range when the SQL is a single bare
identifier, and `SubqueryColumnExpression` indexes an empty attribute
list. -/

/-- Python `str.split(".")`, implemented structurally on the character
list (so it evaluates inside the kernel). -/
def splitDotAux : List Char → List Char → List String
  | [], acc => [String.mk acc.reverse]
  | '.' :: rest, acc => String.mk acc.reverse :: splitDotAux rest []
  | c :: rest, acc => splitDotAux rest (c :: acc)

def splitOnDot (s : String) : List String :=
  splitDotAux s.data []

/-- `SqlTextColumnExpression.default_identifier`, including its
out-of-range `tokens[1]` access in the single-token case. -/
def sqlTextDefaultIdent (sql : String) : Except PyErr (Option String) :=
  match splitOnDot sql with
  | [t0] => if isPyIdentifier t0 then .error .indexError else .ok none
  | [_, t1] => if isPyIdentifier t1 then .ok (some t1) else .ok none
  | _ => .ok none

/-- The `_manually_set_identifier` field of any variant. -/
def ColumnExpression.msiOf : ColumnExpression → Option String
  | .columnName msi _ _ | .sqlText msi _ _ _ | .pyValue msi _
  | .binaryOp msi _ _ _ _ | .cases msi _ _ | .granularity msi _ _
  | .formatTimestamp msi _ _ | .sqlFunction msi _ _ _ | .subquery msi _ => msi

/-- Whether an expression is a `PyValueColumnExpression`
(the `type(base) != PyValueColumnExpression` check). -/
def ColumnExpression.isPyValueVariant : ColumnExpression → Bool
  | .pyValue _ _ => true
  | _ => false

/-- The `_optional_identifier` property given the already-computed
default identifier: `_manually_set_identifier or default_identifier()`
(Python `or` only evaluates the default when the manual identifier is
falsy). -/
def optIdentAux (msi : Option String) (defId : Except PyErr (Option String)) :
    Except PyErr (Option String) :=
  if truthyStr msi then .ok msi else defId

/-- The `identifier` property given the already-computed optional
identifier: raises when no identifier can be determined, or when a
defaulted identifier uses the reserved `__name__` convention. -/
def identifierAux (msi : Option String) (optId : Except PyErr (Option String)) :
    Except PyErr String :=
  match optId with
  | .error err => .error err
  | .ok none => .error (.valueError "no identifier")
  | .ok (some foundId) =>
    if foundId.data.isEmpty then .error (.valueError "no identifier")
    else if !truthyStr msi && isDoubleUnderscoreName foundId then
      .error (.valueError "reserved identifier")
    else .ok foundId

mutual

/-- `default_identifier()` of each `ColumnExpression` variant. -/
def ceDefaultIdent (e : ColumnExpression) : Except PyErr (Option String) :=
  match e with
  | .columnName _ name _ => .ok (some name)
  | .sqlText _ sql _ _ => sqlTextDefaultIdent sql
  | .pyValue _ _ => .ok none
  | .binaryOp _ _ _ _ _ => .ok none
  | .cases _ _ _ => .ok none
  | .granularity _ base _ => ceDefaultIdent base
  | .formatTimestamp _ base _ => ceDefaultIdent base
  | .sqlFunction _ fnName args inherit => sqlFnDefaultIdent fnName inherit args
  | .subquery _ (.mk _ _ attrs _ _ _ _ _ _) =>
    match ceListIdentifiers attrs with
    | .error err => .error err
    | .ok ids =>
      match ids.head? with
      | some h => .ok (some h)
      | none => .error .indexError
termination_by structural e

/-- `SqlFunctionColumnExpression.default_identifier`, folded over the
argument list to find `_base_column_expression()` (the first
column-expression argument). -/
def sqlFnDefaultIdent (fnName : String) (inherit : Bool)
    (args : List FnArg) : Except PyErr (Option String) :=
  match args with
  | [] => .ok (some fnName)
  | .lit _ :: rest => sqlFnDefaultIdent fnName inherit rest
  | .expr e :: _ =>
    if inherit then ceDefaultIdent e
    else if e.isPyValueVariant then .ok (some fnName)
    else
      match ceDefaultIdent e with
      | .error err => .error err
      | .ok (some bd) =>
        if bd.data.isEmpty then .ok (some fnName)
        else .ok (some (fnName ++ "_" ++ bd))
      | .ok none => .ok (some fnName)
termination_by structural args

/-- Identifiers of a list of expressions (`IdentifiableMap.keys()`,
forced by `list(…)`). -/
def ceListIdentifiers (xs : List ColumnExpression) : Except PyErr (List String) :=
  match xs with
  | [] => .ok []
  | e :: rest =>
    match identifierAux e.msiOf (optIdentAux e.msiOf (ceDefaultIdent e)),
        ceListIdentifiers rest with
    | .error err, _ => .error err
    | .ok _, .error err => .error err
    | .ok i, .ok is' => .ok (i :: is')
termination_by structural xs

end

/-- The `_optional_identifier` property:
`_manually_set_identifier or default_identifier()`. -/
def ceOptIdent (e : ColumnExpression) : Except PyErr (Option String) :=
  optIdentAux e.msiOf (ceDefaultIdent e)

/-- The `identifier` property: raises when no identifier can be
determined, or when a defaulted identifier uses the reserved
`__name__` convention. -/
def ceIdentifier (e : ColumnExpression) : Except PyErr String :=
  identifierAux e.msiOf (ceOptIdent e)

/-! ## Serialization: `to_wire_format`

Every `Serializable` subclass is wrapped by `__init_subclass__` so its
output dict gains the `_version` key and its parser checks it.  The
column-expression header fields come from
`ColumnExpression._to_wire_format` (type, subType, manuallySetIdentifier,
__denormalized); variant fields follow in source order and `_version` is
appended last, matching Python dict insertion order. -/

/-- The `__TYPE_KEY__` of a column expression variant. -/
def ColumnExpression.typeKey : ColumnExpression → String
  | .columnName _ _ _ => "columnName"
  | .sqlText _ _ _ _ => "sqlText"
  | .pyValue _ _ => "pyValue"
  | .binaryOp _ _ _ _ _ => "binaryOp"
  | .cases _ _ _ => "case"
  | .granularity _ _ _ => "granularity"
  | .formatTimestamp _ _ _ => "formatTimestamp"
  | .sqlFunction _ _ _ _ => "sqlFunction"
  | .subquery _ _ => "subquery"

/-- The `__TYPE_KEY__` of a source variant. -/
def Source.typeKey : Source → String
  | .tableName _ _ => "tableName"
  | .sqlTextSrc _ => "sqlText"
  | .pick _ _ => "pick"
  | .filterSrc _ _ => "filter"
  | .sortSrc _ _ _ _ => "sort"
  | .limitSrc _ _ _ => "limit"
  | .aggregate _ _ _ => "aggregate"
  | .joinOne _ _ _ _ => "joinOne"
  | .union _ _ => "union"
  | .matchSteps _ _ _ _ _ => "matchSteps"

/-- The `_version` field appended by the `Serializable` wrapper. -/
def versionField : String × Wire := ("_version", .int HASHQUERY_WIRE_VERSION)

/-- Wire encoding of one `options` value. -/
def optValWire : OptVal → Wire
  | .str s => .str s
  | .bool b => .bool b

/-- Wire encoding of a `BinaryOpColumnExpression.options` dict. -/
def optionsWire (opts : List (String × OptVal)) : Wire :=
  .obj (opts.map fun kv => (kv.1, optValWire kv.2))

/-- Wire form of a `Connection` (`model/connection/*.py`): all secret
payloads serialize to the fixed placeholder string. -/
def connToWire : Connection → Wire
  | .duckdb tableMap _ =>
    .obj [("type", .str "connection"), ("subType", .str "duckdb"),
      ("tableMap", .obj (tableMap.map fun kv => (kv.1, Wire.str SECRET_PLACEHOLDER))),
      ("duckDBConfig", .str SECRET_PLACEHOLDER), versionField]
  | .bigquery _ _ location =>
    .obj [("type", .str "connection"), ("subType", .str "bigquery"),
      ("location", optStrWire location),
      ("credentialsPath", .str SECRET_PLACEHOLDER),
      ("credentialsInfo", .str SECRET_PLACEHOLDER), versionField]
  | .hashboardData id projectId name _ =>
    .obj [("type", .str "connection"), ("subType", .str "hashboardDataConnection"),
      ("id", .str id), ("projectId", .str projectId),
      ("name", optStrWire name),
      ("credentials", .str SECRET_PLACEHOLDER), versionField]

/-- Wire form of a `LinkedResource` (`utils/resource.py`). -/
def linkedResourceToWire (r : LinkedResource) : Wire :=
  .obj [("id", .str r.id), ("alias", optStrWire r.aliasName),
    ("projectId", .str r.projectId), versionField]

/-- Wire encoding of the `customMeta` dict (stored as-is). -/
def customMetaWire (meta : List (String × PyLit)) : Wire :=
  .obj (meta.map fun kv => (kv.1, rawToWire kv.2))

mutual

/-- `ColumnExpression.to_wire_format` for each variant.  `Except`-valued
because computing the `__denormalized` identifier can raise (see
`sqlTextDefaultIdent`). -/
def ceToWire (e : ColumnExpression) : Except PyErr Wire := do
  let optId ← ceOptIdent e
  let header := [("type", Wire.str "columnExpression"),
    ("subType", Wire.str e.typeKey),
    ("manuallySetIdentifier", optStrWire e.msiOf),
    ("__denormalized", Wire.obj [("identifier", optStrWire optId)])]
  match e with
  | .columnName _ name nsid =>
    .ok (.obj (header ++ [("columnName", .str name),
      ("namespaceIdentifier", optStrWire nsid), versionField]))
  | .sqlText _ sql nsid nested => do
    let nestedW ← nestedPairsToWire nested
    .ok (.obj (header ++ [("sql", .str sql),
      ("namespaceIdentifier", optStrWire nsid),
      ("nestedExpressions", .obj nestedW), versionField]))
  | .pyValue _ v =>
    .ok (.obj (header ++ [("value", primToWire v), versionField]))
  | .binaryOp _ l r op opts => do
    let lw ← ceToWire l
    let rw ← ceToWire r
    .ok (.obj (header ++ [("left", lw), ("right", rw), ("op", .str op),
      ("options", optionsWire opts), versionField]))
  | .cases _ cs other => do
    let csW ← casePairsToWire cs
    let otherW ← ceToWire other
    .ok (.obj (header ++ [("cases", .arr csW), ("other", otherW), versionField]))
  | .granularity _ base grain => do
    let baseW ← ceToWire base
    .ok (.obj (header ++ [("base", baseW), ("granularity", .str grain), versionField]))
  | .formatTimestamp _ base fmt => do
    let baseW ← ceToWire base
    .ok (.obj (header ++ [("base", baseW), ("format", .str fmt), versionField]))
  | .sqlFunction _ fnName args inherit => do
    let argsW ← fnArgsToWire args
    .ok (.obj (header ++ [("functionName", .str fnName), ("args", .arr argsW),
      ("inheritIdentifier", .bool inherit), versionField]))
  | .subquery _ m => do
    let mw ← modelToWire m
    .ok (.obj (header ++ [("model", mw), versionField]))
termination_by structural e

def nestedPairsToWire (xs : List (String × ColumnExpression)) :
    Except PyErr (List (String × Wire)) :=
  match xs with
  | [] => .ok []
  | (k, e) :: rest => do
    let w ← ceToWire e
    let ws ← nestedPairsToWire rest
    .ok ((k, w) :: ws)
termination_by structural xs

def ceListToWire (xs : List ColumnExpression) : Except PyErr (List Wire) :=
  match xs with
  | [] => .ok []
  | e :: rest => do
    let w ← ceToWire e
    let ws ← ceListToWire rest
    .ok (w :: ws)
termination_by structural xs

def casePairsToWire (xs : List (ColumnExpression × ColumnExpression)) :
    Except PyErr (List Wire) :=
  match xs with
  | [] => .ok []
  | (c, v) :: rest => do
    let cw ← ceToWire c
    let vw ← ceToWire v
    let ws ← casePairsToWire rest
    .ok (.arr [cw, vw] :: ws)
termination_by structural xs

def fnArgsToWire (xs : List FnArg) : Except PyErr (List Wire) :=
  match xs with
  | [] => .ok []
  | .expr e :: rest => do
    let w ← ceToWire e
    let ws ← fnArgsToWire rest
    .ok (w :: ws)
  | .lit v :: rest => do
    let ws ← fnArgsToWire rest
    .ok (rawToWire v :: ws)
termination_by structural xs

/-- `Source.to_wire_format` for each variant. -/
def srcToWire (s : Source) : Except PyErr Wire := do
  let header := [("type", Wire.str "source"), ("subType", Wire.str s.typeKey)]
  match s with
  | .tableName table schema =>
    .ok (.obj (header ++ [("tableName", .str table),
      ("schema", optStrWire schema), versionField]))
  | .sqlTextSrc sql =>
    .ok (.obj (header ++ [("sql", .str sql), versionField]))
  | .pick base columns => do
    let baseW ← srcToWire base
    let colsW ← ceListToWire columns
    .ok (.obj (header ++ [("base", baseW), ("columns", .arr colsW), versionField]))
  | .filterSrc base condition => do
    let baseW ← srcToWire base
    let condW ← ceToWire condition
    .ok (.obj (header ++ [("base", baseW), ("condition", condW), versionField]))
  | .sortSrc base sortBy dir nulls => do
    let baseW ← srcToWire base
    let sortW ← ceToWire sortBy
    .ok (.obj (header ++ [("base", baseW), ("sort", sortW),
      ("dir", .str dir), ("nulls", .str nulls), versionField]))
  | .limitSrc base lim offset => do
    let baseW ← srcToWire base
    .ok (.obj (header ++ [("base", baseW), ("limit", .int lim),
      ("offset", .int offset), versionField]))
  | .aggregate base groups measures => do
    let baseW ← srcToWire base
    let groupsW ← ceListToWire groups
    let measuresW ← ceListToWire measures
    .ok (.obj (header ++ [("base", baseW), ("groups", .arr groupsW),
      ("measures", .arr measuresW), versionField]))
  | .joinOne base relation joinCondition dropUnmatched => do
    let baseW ← srcToWire base
    let relW ← nsToWire relation
    let condW ← ceToWire joinCondition
    .ok (.obj (header ++ [("base", baseW), ("relation", relW),
      ("joinCondition", condW), ("dropUnmatched", .bool dropUnmatched),
      versionField]))
  | .union base unionSource => do
    let baseW ← srcToWire base
    let otherW ← srcToWire unionSource
    .ok (.obj (header ++ [("base", baseW), ("unionSource", otherW), versionField]))
  | .matchSteps base activitySchema steps partitionStartEvents timeLimit => do
    let baseW ← srcToWire base
    let schemaW ← schToWire activitySchema
    let stepsW ← ceListToWire steps
    let partsW ← ceListToWire partitionStartEvents
    let timeLimitW := match timeLimit with
      | some t => primToWire (.timedelta t)
      | none => Wire.null
    .ok (.obj (header ++ [("base", baseW), ("activitySchema", schemaW),
      ("steps", .arr stepsW), ("partitionStartEvents", .arr partsW),
      ("timeLimit", timeLimitW), versionField]))
termination_by structural s

/-- `ModelNamespace._to_wire_format`. -/
def nsToWire (ns : ModelNamespace) : Except PyErr Wire :=
  match ns with
  | .mk identifier nestedModel throughForeignKeyAttr => do
    let mw ← modelToWire nestedModel
    let fkW ← match throughForeignKeyAttr with
      | some fk => ceToWire fk
      | none => pure Wire.null
    .ok (.obj [("type", .str "modelNamespace"), ("identifier", .str identifier),
      ("nestedModel", mw), ("throughForeignKeyAttr", fkW), versionField])
termination_by structural ns

def nsListToWire (xs : List ModelNamespace) : Except PyErr (List Wire) :=
  match xs with
  | [] => .ok []
  | ns :: rest => do
    let w ← nsToWire ns
    let ws ← nsListToWire rest
    .ok (w :: ws)
termination_by structural xs

/-- `ModelActivitySchema._to_wire_format`. -/
def schToWire (a : ModelActivitySchema) : Except PyErr Wire :=
  match a with
  | .mk group timestamp eventKey => do
    let gw ← ceToWire group
    let tw ← ceToWire timestamp
    let ew ← ceToWire eventKey
    .ok (.obj [("type", .str "modelActivitySchema"), ("group", gw),
      ("timestamp", tw), ("eventKey", ew), versionField])
termination_by structural a

/-- `Model._to_wire_format`.  Serializing a model without a connection or
without a source dereferences `None` and raises `AttributeError`. -/
def modelToWire (m : Model) : Except PyErr Wire :=
  match m with
  | .mk connection source attributes measures namespaces primaryKey
      activitySchema customMeta linkedResource => do
    let connW ← match connection with
      | some c => pure (connToWire c)
      | none => Except.error PyErr.attributeError
    let srcW ← match source with
      | some s => srcToWire s
      | none => Except.error PyErr.attributeError
    let attrsW ← ceListToWire attributes
    let measuresW ← ceListToWire measures
    let nssW ← nsListToWire namespaces
    let pkW ← ceToWire primaryKey
    let schW ← match activitySchema with
      | some a => schToWire a
      | none => pure Wire.null
    let lrW := match linkedResource with
      | some r => linkedResourceToWire r
      | none => Wire.null
    .ok (.obj [("type", .str "model"), ("connection", connW), ("source", srcW),
      ("attributes", .arr attrsW), ("measures", .arr measuresW),
      ("namespaces", .arr nssW), ("primaryKey", pkW),
      ("activitySchema", schW), ("customMeta", customMetaWire customMeta),
      ("linkedResource", lrW), versionField])
termination_by structural m

end

/-! ## Deserialization: `from_wire_format` -/

/-- Dictionary access on an object wire (`wire["k"]` / `wire.get("k")`). -/
def getKey (fields : List (String × Wire)) (k : String) : Option Wire :=
  (fields.find? (fun kv => kv.1 == k)).map (fun kv => kv.2)

theorem getKey_sizeOf_lt {fields : List (String × Wire)} {k : String} {w : Wire}
    (h : getKey fields k = some w) : sizeOf w < 1 + sizeOf fields := by
  induction fields with
  | nil => simp [getKey, List.find?] at h
  | cons kv rest ih =>
    rw [getKey, List.find?] at h
    by_cases hk : (kv.1 == k) = true
    · simp only [hk] at h
      cases h
      cases kv
      simp
      omega
    · simp only [Bool.not_eq_true] at hk
      simp only [hk] at h
      have := ih h
      simp at this ⊢
      omega

theorem getKey_arr_sizeOf_lt {fields : List (String × Wire)} {k : String}
    {xs : List Wire} (h : getKey fields k = some (Wire.arr xs)) :
    sizeOf xs < 1 + sizeOf fields := by
  have := getKey_sizeOf_lt h
  simp at this
  omega

theorem getKey_objval_sizeOf_lt {fields : List (String × Wire)} {k : String}
    {kvs : List (String × Wire)} (h : getKey fields k = some (Wire.obj kvs)) :
    sizeOf kvs < 1 + sizeOf fields := by
  have := getKey_sizeOf_lt h
  simp at this
  omega

/-- Python truthiness of a wire value (`if wire.get(…)` patterns). -/
def wireTruthy : Wire → Bool
  | .null => false
  | .bool b => b
  | .int n => n != 0
  | .float _ => true
  | .str s => !s.data.isEmpty
  | .arr xs => !xs.isEmpty
  | .obj kvs => !kvs.isEmpty
  | .rawTimedelta t => t.us != 0
  | _ => true

/-- The version check installed by `Serializable.__init_subclass__`:
`wire.get("_version")` must equal the current version. -/
def checkWireVersion (fields : List (String × Wire)) : Except PyErr Unit :=
  match getKey fields "_version" with
  | some (.int n) =>
    if n == HASHQUERY_WIRE_VERSION then .ok ()
    else .error (.wireVersionError HASHQUERY_WIRE_VERSION (some n))
  | _ => .error (.wireVersionError HASHQUERY_WIRE_VERSION none)

/-- Required string field (`wire["k"]`, expected to be a string). -/
def reqStr (fields : List (String × Wire)) (k : String) : Except PyErr String :=
  match getKey fields k with
  | some (.str s) => .ok s
  | some _ => .error (.valueError ("field is not a string: " ++ k))
  | none => .error (.keyError k)

/-- Required string-or-null field (`wire["k"]`). -/
def reqOptStr (fields : List (String × Wire)) (k : String) :
    Except PyErr (Option String) :=
  match getKey fields k with
  | some (.str s) => .ok (some s)
  | some .null => .ok none
  | some _ => .error (.valueError ("field is not an optional string: " ++ k))
  | none => .error (.keyError k)

/-- Optional string field (`wire.get("k")`, defaulting to `None`). -/
def optFieldStr (fields : List (String × Wire)) (k : String) :
    Except PyErr (Option String) :=
  match getKey fields k with
  | some (.str s) => .ok (some s)
  | some .null => .ok none
  | some _ => .error (.valueError ("field is not an optional string: " ++ k))
  | none => .ok none

/-- Required bool field. -/
def reqBool (fields : List (String × Wire)) (k : String) : Except PyErr Bool :=
  match getKey fields k with
  | some (.bool b) => .ok b
  | some _ => .error (.valueError ("field is not a bool: " ++ k))
  | none => .error (.keyError k)

/-- Required int field. -/
def reqInt (fields : List (String × Wire)) (k : String) : Except PyErr Int :=
  match getKey fields k with
  | some (.int n) => .ok n
  | some _ => .error (.valueError ("field is not an int: " ++ k))
  | none => .error (.keyError k)

/-- The `assert wire["type"] == …` / `assert wire["subType"] == …` checks. -/
def checkStrField (fields : List (String × Wire)) (k expected : String) :
    Except PyErr Unit :=
  match getKey fields k with
  | some (.str s) =>
    if s == expected then .ok ()
    else .error (.assertionError (k ++ " mismatch"))
  | some _ => .error (.assertionError (k ++ " mismatch"))
  | none => .error (.keyError k)

/-- Decode a `BinaryOpColumnExpression.options` dict from the wire. -/
def optValsFromWire (fields : List (String × Wire)) :
    Except PyErr (List (String × OptVal)) :=
  match fields with
  | [] => .ok []
  | (k, .str s) :: rest => do
    let vs ← optValsFromWire rest
    .ok ((k, OptVal.str s) :: vs)
  | (k, .bool b) :: rest => do
    let vs ← optValsFromWire rest
    .ok ((k, OptVal.bool b) :: vs)
  | (k, _) :: _ => .error (.valueError ("bad option value: " ++ k))

/-- `Connection.from_wire_format` with its per-subtype parsers.  The
DuckDB parser builds a connection object but has no `return` statement,
so it yields Python `None`. -/
def connFromWire (w : Wire) : Except PyErr (Option Connection) :=
  match w with
  | .obj fields => do
    let _ ← checkWireVersion fields
    let _ ← checkStrField fields "type" "connection"
    let sub ← reqStr fields "subType"
    if sub == "duckdb" then do
      match getKey fields "tableMap" with
      | some (.obj _) => .ok none
      | some _ => .error (.valueError "bad tableMap")
      | none => .error (.keyError "tableMap")
    else if sub == "bigquery" then do
      let location ← optFieldStr fields "location"
      .ok (some (.bigquery none none location))
    else if sub == "hashboardDataConnection" then do
      let id ← reqStr fields "id"
      let projectId ← reqStr fields "projectId"
      let name ← optFieldStr fields "name"
      .ok (some (.hashboardData id projectId name none))
    else .error (.assertionError ("Unknown Connection type key: " ++ sub))
  | _ => .error (.assertionError "connection wire is not a dict")

/-- `LinkedResource.from_wire_format`. -/
def linkedResourceFromWire (w : Wire) : Except PyErr LinkedResource :=
  match w with
  | .obj fields => do
    let _ ← checkWireVersion fields
    let id ← reqStr fields "id"
    let aliasName ← reqOptStr fields "alias"
    let projectId ← reqStr fields "projectId"
    .ok ⟨id, aliasName, projectId⟩
  | _ => .error (.assertionError "linked resource wire is not a dict")

/-- Decode a `customMeta` dict (raw values, stored as-is). -/
def customMetaFromWire (fields : List (String × Wire)) :
    Except PyErr (List (String × PyLit)) :=
  match fields with
  | [] => .ok []
  | (k, w) :: rest => do
    let v ← rawFromWire w
    let vs ← customMetaFromWire rest
    .ok ((k, v) :: vs)

/-- `to_python_identifier` (`utils/identifier.py`): non-word characters
become underscores and a leading digit gains an underscore prefix. -/
def toPythonIdentifier (s : String) : String :=
  let repl := s.data.map (fun c => if c.isAlphanum || c == '_' then c else '_')
  match repl with
  | c :: _ => if c.isDigit then String.mk ('_' :: repl) else String.mk repl
  | [] => ""

/-- Replace the `_manually_set_identifier` of an expression. -/
def ColumnExpression.withMsi (msi : Option String) :
    ColumnExpression → ColumnExpression
  | .columnName _ a b => .columnName msi a b
  | .sqlText _ a b c => .sqlText msi a b c
  | .pyValue _ a => .pyValue msi a
  | .binaryOp _ a b c d => .binaryOp msi a b c d
  | .cases _ a b => .cases msi a b
  | .granularity _ a b => .granularity msi a b
  | .formatTimestamp _ a b => .formatTimestamp msi a b
  | .sqlFunction _ a b c => .sqlFunction msi a b c
  | .subquery _ a => .subquery msi a

/-- `ColumnExpression.named`: rejects reserved `__name__` identifiers,
otherwise sets the manual identifier on a copy. -/
def ceNamed (e : ColumnExpression) (name : String) : Except PyErr ColumnExpression :=
  if !name.data.isEmpty && isDoubleUnderscoreName name then
    .error (.valueError "reserved name")
  else .ok (e.withMsi (some name))

/-- A step input to `normalize_steps`: an expression, or a legacy string
step matched against the activity schema's event key. -/
inductive StepInput where
  | expr (e : ColumnExpression)
  | strStep (s : String)

/-- Whether a list of strings contains a duplicate. -/
def hasDuplicate (xs : List String) : Bool :=
  (xs.foldl (fun acc x =>
    match acc with
    | (seen, dup) => (x :: seen, dup || seen.contains x)) ([], false)).2

/-- `normalize_steps` (`utils/activity_schema.py`): normalize each step to
a column expression and reject duplicate step identifiers. -/
def normalizeSteps (steps : List StepInput) (aSch : ModelActivitySchema) :
    Except PyErr (List ColumnExpression) := do
  let exprs ← steps.mapM (fun step =>
    match step with
    | .expr e => .ok e
    | .strStep s =>
      match aSch with
      | .mk _ _ eventKey =>
        ceNamed (.binaryOp none eventKey (.pyValue none (.str s)) "=" [])
          (toPythonIdentifier s))
  let ids ← ceListIdentifiers exprs
  if hasDuplicate ids then .error (.valueError "Found non-unique steps")
  else .ok exprs

mutual

/-- `ColumnExpression.from_wire_format`: version check, type/subType
dispatch, then the per-variant parser and `_from_wire_format_shared`. -/
def ceFromWire (w : Wire) : Except PyErr ColumnExpression :=
  match w with
  | .obj fields => do
    let _ ← checkWireVersion fields
    let _ ← checkStrField fields "type" "columnExpression"
    let sub ← reqStr fields "subType"
    let msi ← reqOptStr fields "manuallySetIdentifier"
    if sub == "columnName" then do
      let name ← reqStr fields "columnName"
      let nsid ← reqOptStr fields "namespaceIdentifier"
      .ok (.columnName msi name nsid)
    else if sub == "sqlText" then do
      let sql ← reqStr fields "sql"
      let nsid ← optFieldStr fields "namespaceIdentifier"
      let nested ← cePairsFieldP fields "nestedExpressions"
      .ok (.sqlText msi sql nsid nested)
    else if sub == "pyValue" then do
      match getKey fields "value" with
      | some vw => do
        let v ← primFromWire vw
        .ok (.pyValue msi v)
      | none => .error (.keyError "value")
    else if sub == "binaryOp" then do
      let l ← ceFieldP fields "left"
      let r ← ceFieldP fields "right"
      let op ← reqStr fields "op"
      match getKey fields "options" with
      | some (.obj optkvs) => do
        let opts ← optValsFromWire optkvs
        .ok (.binaryOp msi l r op opts)
      | some _ => .error (.valueError "bad options")
      | none => .error (.keyError "options")
    else if sub == "case" then do
      let cs ← caseListFieldP fields "cases"
      let other ← ceFieldP fields "other"
      .ok (.cases msi cs other)
    else if sub == "granularity" then do
      let base ← ceFieldP fields "base"
      let grain ← reqStr fields "granularity"
      .ok (.granularity msi base grain)
    else if sub == "formatTimestamp" then do
      let base ← ceFieldP fields "base"
      let fmt ← reqStr fields "format"
      .ok (.formatTimestamp msi base fmt)
    else if sub == "sqlFunction" then do
      let fnName ← reqStr fields "functionName"
      let args ← fnArgsFieldP fields "args"
      .ok (.sqlFunction msi fnName args false)
    else if sub == "subquery" then do
      let m ← modelFieldP fields "model"
      .ok (.subquery msi m)
    else .error (.assertionError ("Unknown ColumnExpression type key: " ++ sub))
  | _ => .error (.assertionError "column expression wire is not a dict")
termination_by structural w

/-- Find a field and parse it as a column expression (`wire["k"]` fed to
`ColumnExpression.from_wire_format`). -/
def ceFieldP (fields : List (String × Wire)) (k : String) :
    Except PyErr ColumnExpression :=
  match fields with
  | [] => .error (.keyError k)
  | (k', v) :: rest => if k' == k then ceFromWire v else ceFieldP rest k
termination_by structural fields

/-- Find a field and parse it as a list of column expressions. -/
def ceArrFieldP (fields : List (String × Wire)) (k : String) :
    Except PyErr (List ColumnExpression) :=
  match fields with
  | [] => .error (.keyError k)
  | (k', v) :: rest =>
    if k' == k then
      match v with
      | .arr xs => ceListFromWire xs
      | _ => .error (.valueError ("field is not a list: " ++ k))
    else ceArrFieldP rest k
termination_by structural fields

/-- Like `ceArrFieldP` but a missing key defaults to the empty list
(the `wire.get(k, [])` pattern). -/
def ceArrFieldOptP (fields : List (String × Wire)) (k : String) :
    Except PyErr (List ColumnExpression) :=
  match fields with
  | [] => .ok []
  | (k', v) :: rest =>
    if k' == k then
      match v with
      | .arr xs => ceListFromWire xs
      | _ => .error (.valueError ("field is not a list: " ++ k))
    else ceArrFieldOptP rest k
termination_by structural fields

/-- Find the `nestedExpressions` dict and parse its values; a missing key
defaults to the empty dict (`wire.get(k, {})`). -/
def cePairsFieldP (fields : List (String × Wire)) (k : String) :
    Except PyErr (List (String × ColumnExpression)) :=
  match fields with
  | [] => .ok []
  | (k', v) :: rest =>
    if k' == k then
      match v with
      | .obj kvs => cePairsFromWire kvs
      | _ => .error (.valueError ("field is not a dict: " ++ k))
    else cePairsFieldP rest k
termination_by structural fields

/-- Find a field and parse it as a list of `[condition, value]` pairs. -/
def caseListFieldP (fields : List (String × Wire)) (k : String) :
    Except PyErr (List (ColumnExpression × ColumnExpression)) :=
  match fields with
  | [] => .error (.keyError k)
  | (k', v) :: rest =>
    if k' == k then
      match v with
      | .arr xs => caseListFromWire xs
      | _ => .error (.valueError ("field is not a list: " ++ k))
    else caseListFieldP rest k
termination_by structural fields

/-- Find a field and parse it as a function-argument list. -/
def fnArgsFieldP (fields : List (String × Wire)) (k : String) :
    Except PyErr (List FnArg) :=
  match fields with
  | [] => .error (.keyError k)
  | (k', v) :: rest =>
    if k' == k then
      match v with
      | .arr xs => fnArgsFromWire xs
      | _ => .error (.valueError ("field is not a list: " ++ k))
    else fnArgsFieldP rest k
termination_by structural fields

/-- Find a field and parse it as a list of step inputs. -/
def stepsFieldP (fields : List (String × Wire)) (k : String) :
    Except PyErr (List StepInput) :=
  match fields with
  | [] => .error (.keyError k)
  | (k', v) :: rest =>
    if k' == k then
      match v with
      | .arr xs => stepsFromWire xs
      | _ => .error (.valueError ("field is not a list: " ++ k))
    else stepsFieldP rest k
termination_by structural fields

/-- Find a field and parse it as a source. -/
def srcFieldP (fields : List (String × Wire)) (k : String) :
    Except PyErr Source :=
  match fields with
  | [] => .error (.keyError k)
  | (k', v) :: rest => if k' == k then srcFromWire v else srcFieldP rest k
termination_by structural fields

/-- Find a field and parse it as a model namespace. -/
def nsFieldP (fields : List (String × Wire)) (k : String) :
    Except PyErr ModelNamespace :=
  match fields with
  | [] => .error (.keyError k)
  | (k', v) :: rest => if k' == k then nsFromWire v else nsFieldP rest k
termination_by structural fields

/-- Find a field and parse it as a list of namespaces; a missing key
defaults to the empty list. -/
def nsArrFieldOptP (fields : List (String × Wire)) (k : String) :
    Except PyErr (List ModelNamespace) :=
  match fields with
  | [] => .ok []
  | (k', v) :: rest =>
    if k' == k then
      match v with
      | .arr xs => nsListFromWire xs
      | _ => .error (.valueError ("field is not a list: " ++ k))
    else nsArrFieldOptP rest k
termination_by structural fields

/-- Find a field and parse it as an activity schema. -/
def schFieldP (fields : List (String × Wire)) (k : String) :
    Except PyErr ModelActivitySchema :=
  match fields with
  | [] => .error (.keyError k)
  | (k', v) :: rest => if k' == k then schFromWire v else schFieldP rest k
termination_by structural fields

/-- Optional activity-schema field guarded by Python truthiness
(`ModelActivitySchema._from_wire_format(wire["k"]) if wire.get("k") else None`). -/
def schOptFieldP (fields : List (String × Wire)) (k : String) :
    Except PyErr (Option ModelActivitySchema) :=
  match fields with
  | [] => .ok none
  | (k', v) :: rest =>
    if k' == k then
      if wireTruthy v then do
        let a ← schFromWire v
        .ok (some a)
      else .ok none
    else schOptFieldP rest k
termination_by structural fields

/-- Find a field and parse it as a model. -/
def modelFieldP (fields : List (String × Wire)) (k : String) :
    Except PyErr Model :=
  match fields with
  | [] => .error (.keyError k)
  | (k', v) :: rest => if k' == k then modelFromWire v else modelFieldP rest k
termination_by structural fields

/-- Optional column-expression field guarded by Python truthiness
(the `if fkattr_wire := wire.get("k")` pattern). -/
def ceOptTruthyFieldP (fields : List (String × Wire)) (k : String) :
    Except PyErr (Option ColumnExpression) :=
  match fields with
  | [] => .ok none
  | (k', v) :: rest =>
    if k' == k then
      if wireTruthy v then do
        let e ← ceFromWire v
        .ok (some e)
      else .ok none
    else ceOptTruthyFieldP rest k
termination_by structural fields

def ceListFromWire (xs : List Wire) : Except PyErr (List ColumnExpression) :=
  match xs with
  | [] => .ok []
  | w :: rest => do
    let e ← ceFromWire w
    let es ← ceListFromWire rest
    .ok (e :: es)
termination_by structural xs

def cePairsFromWire (kvs : List (String × Wire)) :
    Except PyErr (List (String × ColumnExpression)) :=
  match kvs with
  | [] => .ok []
  | (k, w) :: rest => do
    let e ← ceFromWire w
    let es ← cePairsFromWire rest
    .ok ((k, e) :: es)
termination_by structural kvs

def caseListFromWire (xs : List Wire) :
    Except PyErr (List (ColumnExpression × ColumnExpression)) :=
  match xs with
  | [] => .ok []
  | w :: rest =>
    match w with
    | .arr [cw, vw] => do
      let c ← ceFromWire cw
      let v ← ceFromWire vw
      let cvs ← caseListFromWire rest
      .ok ((c, v) :: cvs)
    | _ => .error (.valueError "bad case pair")
termination_by structural xs

/-- Function arguments: dicts tagged as column expressions are parsed,
anything else is passed through raw. -/
def fnArgsFromWire (xs : List Wire) : Except PyErr (List FnArg) :=
  match xs with
  | [] => .ok []
  | w :: rest =>
    match w with
    | .obj kvs =>
      (match getKey kvs "type" with
        | some (.str t) =>
          if t == "columnExpression" then do
            let e ← ceFromWire w
            let rest' ← fnArgsFromWire rest
            .ok (.expr e :: rest')
          else .error (.valueError "unsupported raw dict argument")
        | _ => .error (.valueError "unsupported raw dict argument"))
    | _ => do
      let v ← rawFromWire w
      let rest' ← fnArgsFromWire rest
      .ok (.lit v :: rest')
termination_by structural xs

/-- Steps of a `matchSteps` wire: dicts are parsed as expressions, legacy
strings are kept for `normalize_steps`. -/
def stepsFromWire (xs : List Wire) : Except PyErr (List StepInput) :=
  match xs with
  | [] => .ok []
  | w :: rest =>
    match w with
    | .obj _ => do
      let e ← ceFromWire w
      let rest' ← stepsFromWire rest
      .ok (.expr e :: rest')
    | .str s => do
      let rest' ← stepsFromWire rest
      .ok (.strStep s :: rest')
    | _ => .error (.valueError "bad step")
termination_by structural xs

/-- `Source.from_wire_format`: version check, type/subType dispatch, then
the per-variant parser. -/
def srcFromWire (w : Wire) : Except PyErr Source :=
  match w with
  | .obj fields => do
    let _ ← checkWireVersion fields
    let _ ← checkStrField fields "type" "source"
    let sub ← reqStr fields "subType"
    if sub == "tableName" then do
      let table ← reqStr fields "tableName"
      let schema ← optFieldStr fields "schema"
      .ok (.tableName table schema)
    else if sub == "sqlText" then do
      let sql ← reqStr fields "sql"
      .ok (.sqlTextSrc sql)
    else if sub == "pick" then do
      let base ← srcFieldP fields "base"
      let cols ← ceArrFieldP fields "columns"
      .ok (.pick base cols)
    else if sub == "filter" then do
      let base ← srcFieldP fields "base"
      let cond ← ceFieldP fields "condition"
      .ok (.filterSrc base cond)
    else if sub == "sort" then do
      let base ← srcFieldP fields "base"
      let sortBy ← ceFieldP fields "sort"
      let dir ← reqStr fields "dir"
      let nulls ← (match getKey fields "nulls" with
        | some (.str s) => Except.ok s
        | some _ => Except.error (PyErr.valueError "bad nulls")
        | none => Except.ok "auto")
      .ok (.sortSrc base sortBy dir nulls)
    else if sub == "limit" then do
      let base ← srcFieldP fields "base"
      let lim ← reqInt fields "limit"
      let offset ← reqInt fields "offset"
      .ok (.limitSrc base lim offset)
    else if sub == "aggregate" then do
      let base ← srcFieldP fields "base"
      let groups ← ceArrFieldP fields "groups"
      let measures ← ceArrFieldP fields "measures"
      .ok (.aggregate base groups measures)
    else if sub == "joinOne" then do
      let base ← srcFieldP fields "base"
      let rel ← nsFieldP fields "relation"
      let cond ← ceFieldP fields "joinCondition"
      let dropUnmatched ← reqBool fields "dropUnmatched"
      .ok (.joinOne base rel cond dropUnmatched)
    else if sub == "union" then do
      let base ← srcFieldP fields "base"
      let other ← srcFieldP fields "unionSource"
      .ok (.union base other)
    else if sub == "matchSteps" then do
      let aSch ← schFieldP fields "activitySchema"
      let parsedSteps ← stepsFieldP fields "steps"
      let partitions ← ceArrFieldOptP fields "partitionStartEvents"
      let base ← srcFieldP fields "base"
      let steps ← normalizeSteps parsedSteps aSch
      let timeLimit ← (match getKey fields "timeLimit" with
        | some tw => do
          match ← primFromWire tw with
          | .timedelta t => Except.ok (some t)
          | .none => Except.ok none
          | _ => Except.error (PyErr.valueError "bad timeLimit")
        | none => Except.ok none)
      .ok (.matchSteps base aSch steps partitions timeLimit)
    else .error (.assertionError ("Unknown Source type key: " ++ sub))
  | _ => .error (.assertionError "source wire is not a dict")
termination_by structural w

/-- `ModelNamespace._from_wire_format`. -/
def nsFromWire (w : Wire) : Except PyErr ModelNamespace :=
  match w with
  | .obj fields => do
    let _ ← checkWireVersion fields
    let _ ← checkStrField fields "type" "modelNamespace"
    let identifier ← reqStr fields "identifier"
    let m ← modelFieldP fields "nestedModel"
    let fk ← ceOptTruthyFieldP fields "throughForeignKeyAttr"
    .ok (.mk identifier m fk)
  | _ => .error (.assertionError "namespace wire is not a dict")
termination_by structural w

/-- `ModelActivitySchema._from_wire_format`. -/
def schFromWire (w : Wire) : Except PyErr ModelActivitySchema :=
  match w with
  | .obj fields => do
    let _ ← checkWireVersion fields
    let _ ← checkStrField fields "type" "modelActivitySchema"
    let g ← ceFieldP fields "group"
    let t ← ceFieldP fields "timestamp"
    let e ← ceFieldP fields "eventKey"
    .ok (.mk g t e)
  | _ => .error (.assertionError "activity schema wire is not a dict")
termination_by structural w

/-- `Model._from_wire_format`. -/
def modelFromWire (w : Wire) : Except PyErr Model :=
  match w with
  | .obj fields => do
    let _ ← checkWireVersion fields
    let _ ← checkStrField fields "type" "model"
    let conn ← (match getKey fields "connection" with
      | some cw => connFromWire cw
      | none => Except.error (PyErr.keyError "connection"))
    let src ← srcFieldP fields "source"
    let attrs ← ceArrFieldOptP fields "attributes"
    let measures ← ceArrFieldOptP fields "measures"
    let nss ← nsArrFieldOptP fields "namespaces"
    let pk ← ceFieldP fields "primaryKey"
    let aSch ← schOptFieldP fields "activitySchema"
    let meta ← (match getKey fields "customMeta" with
      | some (.obj kvs) => customMetaFromWire kvs
      | some _ => Except.error (PyErr.valueError "bad customMeta")
      | none => Except.ok [])
    let lr ← (match getKey fields "linkedResource" with
      | some lrw =>
        if wireTruthy lrw then do
          let r ← linkedResourceFromWire lrw
          Except.ok (some r)
        else Except.ok none
      | none => Except.error (PyErr.keyError "linkedResource"))
    .ok (.mk conn (some src) attrs measures nss pk aSch meta lr)
  | _ => .error (.assertionError "model wire is not a dict")
termination_by structural w

def nsListFromWire (xs : List Wire) : Except PyErr (List ModelNamespace) :=
  match xs with
  | [] => .ok []
  | w :: rest => do
    let ns ← nsFromWire w
    let nss ← nsListFromWire rest
    .ok (ns :: nss)
termination_by structural xs

end

/-! ## Round-trip analysis

The wire round-trip does not hold unconditionally; the `good*` predicates
below carve out exactly the nodes on which it does.  Each conjunct
corresponds to a concrete loss in the source:

* `SqlFunction` nodes deserialize with `inherit_identifier=False`
  regardless of the serialized flag;
* top-level `timedelta` literals (and `matchSteps.time_limit`) are
  truncated to whole seconds by `int(value.total_seconds())`;
* serialization itself raises when a node's `__denormalized` identifier
  computation raises (`sqlTextDefaultIdent`, empty-attribute subqueries);
* `matchSteps` deserialization re-runs `normalize_steps`, which requires
  every step to have a distinct, determinable identifier;
* connections drop their secret payloads (and the DuckDB parser returns
  `None` outright), so only secret-free non-DuckDB connections survive.
-/

/-- Whether an `Except` result is a success. -/
def exceptOk : Except PyErr α → Bool
  | .ok _ => true
  | .error _ => false

/-- A timedelta that survives the whole-second truncation. -/
def PyTimedelta.isWholeSeconds (t : PyTimedelta) : Bool :=
  t.us % usPerSecond == 0

/-- A `PyValue` payload that round-trips (top-level timedeltas must have
whole seconds). -/
def goodTopVal : PyLit → Bool
  | .timedelta t => t.isWholeSeconds
  | _ => true

/-- A connection whose wire round-trip is the identity: no DuckDB (its
parser returns `None`), no credentials (they serialize to placeholders
and deserialize to `None`). -/
def goodConn : Connection → Bool
  | .duckdb _ _ => false
  | .bigquery credentialsPath credentialsInfo _ =>
    credentialsPath.isNone && credentialsInfo.isNone
  | .hashboardData _ _ _ credentials => credentials.isNone

mutual

/-- Nodes on which the column-expression round-trip holds. -/
def goodCE (e : ColumnExpression) : Bool :=
  exceptOk (ceOptIdent e) &&
  match e with
  | .columnName _ _ _ => true
  | .sqlText _ _ _ nested => goodCEPairs nested
  | .pyValue _ v => goodTopVal v
  | .binaryOp _ l r _ _ => goodCE l && goodCE r
  | .cases _ cs other => goodCasePairs cs && goodCE other
  | .granularity _ base _ => goodCE base
  | .formatTimestamp _ base _ => goodCE base
  | .sqlFunction _ _ args inherit => !inherit && goodArgs args
  | .subquery _ m => goodModel m
termination_by structural e

def goodCEPairs (xs : List (String × ColumnExpression)) : Bool :=
  match xs with
  | [] => true
  | (_, e) :: rest => goodCE e && goodCEPairs rest
termination_by structural xs

def goodCasePairs (xs : List (ColumnExpression × ColumnExpression)) : Bool :=
  match xs with
  | [] => true
  | (c, v) :: rest => goodCE c && goodCE v && goodCasePairs rest
termination_by structural xs

def goodArgs (xs : List FnArg) : Bool :=
  match xs with
  | [] => true
  | .expr e :: rest => goodCE e && goodArgs rest
  | .lit _ :: rest => goodArgs rest
termination_by structural xs

def goodCEList (xs : List ColumnExpression) : Bool :=
  match xs with
  | [] => true
  | e :: rest => goodCE e && goodCEList rest
termination_by structural xs

/-- Nodes on which the source round-trip holds. -/
def goodSrc (s : Source) : Bool :=
  match s with
  | .tableName _ _ => true
  | .sqlTextSrc _ => true
  | .pick base columns => goodSrc base && goodCEList columns
  | .filterSrc base condition => goodSrc base && goodCE condition
  | .sortSrc base sortBy _ _ => goodSrc base && goodCE sortBy
  | .limitSrc base _ _ => goodSrc base
  | .aggregate base groups measures =>
    goodSrc base && goodCEList groups && goodCEList measures
  | .joinOne base relation joinCondition _ =>
    goodSrc base && goodNs relation && goodCE joinCondition
  | .union base unionSource => goodSrc base && goodSrc unionSource
  | .matchSteps base activitySchema steps partitionStartEvents timeLimit =>
    goodSrc base && goodSch activitySchema && goodCEList steps &&
    goodCEList partitionStartEvents &&
    (match ceListIdentifiers steps with
      | .ok ids => !hasDuplicate ids
      | .error _ => false) &&
    (match timeLimit with
      | some t => t.isWholeSeconds
      | none => true)
termination_by structural s

def goodNs (ns : ModelNamespace) : Bool :=
  match ns with
  | .mk _ nestedModel throughForeignKeyAttr =>
    goodModel nestedModel &&
    (match throughForeignKeyAttr with
      | some fk => goodCE fk
      | none => true)
termination_by structural ns

def goodNsList (xs : List ModelNamespace) : Bool :=
  match xs with
  | [] => true
  | ns :: rest => goodNs ns && goodNsList rest
termination_by structural xs

def goodSch (a : ModelActivitySchema) : Bool :=
  match a with
  | .mk group timestamp eventKey =>
    goodCE group && goodCE timestamp && goodCE eventKey
termination_by structural a

/-- Models on which the round-trip holds: a secret-free connection and a
source must be present, and every component must round-trip. -/
def goodModel (m : Model) : Bool :=
  match m with
  | .mk connection source attributes measures namespaces primaryKey
      activitySchema _ _ =>
    (match connection with
      | some c => goodConn c
      | none => false) &&
    (match source with
      | some s => goodSrc s
      | none => false) &&
    goodCEList attributes && goodCEList measures && goodNsList namespaces &&
    goodCE primaryKey &&
    (match activitySchema with
      | some a => goodSch a
      | none => true)
termination_by structural m

end

/-! ## Builder methods (`utils/builder.py`, `model/model.py`)

`builder_method` wraps a mutator: it deep-copies `self`, runs the mutator on
the copy, and returns the copy.  We model the Python object store as a heap
of `Model` cells addressed by index; `deepcopy` allocates a fresh cell and a
mutator's net effect on its `self` cell is a function
`Model → Except PyErr Model` (each of the thirteen mutator bodies below only
writes through `self`, so this captures them exactly).  One deviation, noted
where it occurs: `Model._source` may be `None` in Python and the source
constructors accept that silently, deferring any failure to compile time;
our `Source` type is total, so bodies that read `self._source` surface an
`attributeError` instead when it is absent. -/

/-- Field accessor for `Model._connection`. -/
def Model.connection : Model → Option Connection
  | .mk c _ _ _ _ _ _ _ _ => c

/-- Field accessor for `Model._source`. -/
def Model.source : Model → Option Source
  | .mk _ s _ _ _ _ _ _ _ => s

/-- Field accessor for `Model._attributes` (backing list). -/
def Model.attributes : Model → List ColumnExpression
  | .mk _ _ a _ _ _ _ _ _ => a

/-- Field accessor for `Model._measures` (backing list). -/
def Model.measures : Model → List ColumnExpression
  | .mk _ _ _ ms _ _ _ _ _ => ms

/-- Field accessor for `Model._namespaces` (backing list). -/
def Model.namespaces : Model → List ModelNamespace
  | .mk _ _ _ _ ns _ _ _ _ => ns

/-- Field accessor for `Model._primary_key`. -/
def Model.primaryKey : Model → ColumnExpression
  | .mk _ _ _ _ _ pk _ _ _ => pk

/-- Field accessor for `Model._activity_schema`. -/
def Model.activitySchema : Model → Option ModelActivitySchema
  | .mk _ _ _ _ _ _ asch _ _ => asch

/-- Field accessor for `Model._custom_meta`. -/
def Model.customMeta : Model → List (String × PyLit)
  | .mk _ _ _ _ _ _ _ cm _ => cm

/-- Write `Model._connection`. -/
def Model.setConnection (m : Model) (c : Option Connection) : Model :=
  match m with
  | .mk _ s a ms ns pk asch cm lr => .mk c s a ms ns pk asch cm lr

/-- Write `Model._source`. -/
def Model.setSource (m : Model) (s : Option Source) : Model :=
  match m with
  | .mk c _ a ms ns pk asch cm lr => .mk c s a ms ns pk asch cm lr

/-- Write `Model._attributes`. -/
def Model.setAttributes (m : Model) (a : List ColumnExpression) : Model :=
  match m with
  | .mk c s _ ms ns pk asch cm lr => .mk c s a ms ns pk asch cm lr

/-- Write `Model._measures`. -/
def Model.setMeasures (m : Model) (ms : List ColumnExpression) : Model :=
  match m with
  | .mk c s a _ ns pk asch cm lr => .mk c s a ms ns pk asch cm lr

/-- Write `Model._namespaces`. -/
def Model.setNamespaces (m : Model) (ns : List ModelNamespace) : Model :=
  match m with
  | .mk c s a ms _ pk asch cm lr => .mk c s a ms ns pk asch cm lr

/-- Write `Model._primary_key`. -/
def Model.setPrimaryKey (m : Model) (pk : ColumnExpression) : Model :=
  match m with
  | .mk c s a ms ns _ asch cm lr => .mk c s a ms ns pk asch cm lr

/-- Write `Model._activity_schema`. -/
def Model.setActivitySchema (m : Model) (asch : Option ModelActivitySchema) :
    Model :=
  match m with
  | .mk c s a ms ns pk _ cm lr => .mk c s a ms ns pk asch cm lr

/-- Write `Model._custom_meta`. -/
def Model.setCustomMeta (m : Model) (cm : List (String × PyLit)) : Model :=
  match m with
  | .mk c s a ms ns pk asch _ lr => .mk c s a ms ns pk asch cm lr

/-- Field accessor for `ModelActivitySchema.group`. -/
def ModelActivitySchema.group : ModelActivitySchema → ColumnExpression
  | .mk g _ _ => g

/-- Field accessor for `ModelActivitySchema.timestamp`. -/
def ModelActivitySchema.timestamp : ModelActivitySchema → ColumnExpression
  | .mk _ t _ => t

/-- Field accessor for `ModelActivitySchema.event_key`. -/
def ModelActivitySchema.eventKey : ModelActivitySchema → ColumnExpression
  | .mk _ _ e => e

/-- Field accessor for `ModelNamespace._identifier`. -/
def ModelNamespace.identifier : ModelNamespace → String
  | .mk i _ _ => i

/-- Field accessor for `ModelNamespace._nested_model`. -/
def ModelNamespace.nestedModel : ModelNamespace → Model
  | .mk _ nm _ => nm

/-- Field accessor for `ModelNamespace._through_foreign_key_attr`. -/
def ModelNamespace.throughForeignKeyAttr : ModelNamespace →
    Option ColumnExpression
  | .mk _ _ fk => fk

/-- Read `self._source`, surfacing the absent-source deviation noted above. -/
def requireSource (m : Model) : Except PyErr Source :=
  match m.source with
  | some s => .ok s
  | none => .error .attributeError

/-- `ColumnExpression._is_star`: the base property returns `False` and no
subclass in this snapshot overrides it. -/
def ColumnExpression.isStar (_ : ColumnExpression) : Bool := false

/-- `IdentifiableMap.add` for column expressions, given the new value's
identifier: scan for an element with the same identifier (computing each
scanned element's raising `identifier` property), replace the first match in
place, else append. -/
def imAddCEAux : List ColumnExpression → String → ColumnExpression →
    Except PyErr (List ColumnExpression)
  | [], _, v => .ok [v]
  | x :: rest, vid, v =>
    match ceIdentifier x with
    | .error e => .error e
    | .ok xid =>
      if xid == vid then .ok (v :: rest)
      else
        match imAddCEAux rest vid v with
        | .error e => .error e
        | .ok r => .ok (x :: r)

/-- `IdentifiableMap.add` for column expressions: the new value's identifier
is computed first (`_get_id(value)`), then the map is scanned. -/
def ceMapAdd (xs : List ColumnExpression) (v : ColumnExpression) :
    Except PyErr (List ColumnExpression) := do
  let vid ← ceIdentifier v
  imAddCEAux xs vid v

/-- `IdentifiableMap.add` for namespaces; `_get_id` reads the plain
`_identifier` field so no error can occur. -/
def imAddNs : List ModelNamespace → ModelNamespace → List ModelNamespace
  | [], v => [v]
  | ns :: rest, v =>
    if ns.identifier == v.identifier then v :: rest
    else ns :: imAddNs rest v

/-- Python dict assignment `d[k] = v` on an insertion-ordered assoc list. -/
def dictSetLit : List (String × PyLit) → String → PyLit →
    List (String × PyLit)
  | [], k, v => [(k, v)]
  | (k0, v0) :: rest, k, v =>
    if k0 == k then (k, v) :: rest else (k0, v0) :: dictSetLit rest k v

mutual

/-- `ColumnExpression.disambiguated(namespace)` (net effect of the
builder-wrapped per-variant mutators): bind the namespace identifier on
`columnName`/`sqlText` nodes and recurse into children; `pyValue` and
`subquery` are unchanged. -/
def ceDisambiguated (e : ColumnExpression) (ns : String) : ColumnExpression :=
  match e with
  | .columnName msi n _ => .columnName msi n (some ns)
  | .sqlText msi sql _ nested =>
    .sqlText msi sql (some ns) (cePairsDisambiguated nested ns)
  | .pyValue msi v => .pyValue msi v
  | .binaryOp msi l r op opts =>
    .binaryOp msi (ceDisambiguated l ns) (ceDisambiguated r ns) op opts
  | .cases msi cs other =>
    .cases msi (caseListDisambiguated cs ns) (ceDisambiguated other ns)
  | .granularity msi b g => .granularity msi (ceDisambiguated b ns) g
  | .formatTimestamp msi b f => .formatTimestamp msi (ceDisambiguated b ns) f
  | .sqlFunction msi f args inh =>
    .sqlFunction msi f (argsDisambiguated args ns) inh
  | .subquery msi m => .subquery msi m
termination_by structural e

/-- `disambiguated` over `sqlText` nested expressions. -/
def cePairsDisambiguated (xs : List (String × ColumnExpression)) (ns : String) :
    List (String × ColumnExpression) :=
  match xs with
  | [] => []
  | (k, e) :: rest => (k, ceDisambiguated e ns) :: cePairsDisambiguated rest ns
termination_by structural xs

/-- `disambiguated` over `cases` pairs. -/
def caseListDisambiguated (xs : List (ColumnExpression × ColumnExpression))
    (ns : String) : List (ColumnExpression × ColumnExpression) :=
  match xs with
  | [] => []
  | (c, v) :: rest =>
    (ceDisambiguated c ns, ceDisambiguated v ns) :: caseListDisambiguated rest ns
termination_by structural xs

/-- `disambiguated` over function arguments (non-expression arguments pass
through untouched). -/
def argsDisambiguated (xs : List FnArg) (ns : String) : List FnArg :=
  match xs with
  | [] => []
  | .expr e :: rest => .expr (ceDisambiguated e ns) :: argsDisambiguated rest ns
  | .lit v :: rest => .lit v :: argsDisambiguated rest ns
termination_by structural xs

end

/-- `Source._default_identifier`: a table name's first dot-token when it is
an identifier; `None` for SQL text and `matchSteps` (which inherits the base
implementation); all other variants delegate to their base source. -/
def Source.defaultIdent : Source → Option String
  | .tableName table _ =>
    match splitOnDot table with
    | t0 :: _ => if isPyIdentifier t0 then some t0 else none
    | [] => none
  | .sqlTextSrc _ => none
  | .matchSteps _ _ _ _ _ => none
  | .pick base _ | .filterSrc base _ | .sortSrc base _ _ _
  | .limitSrc base _ _ | .aggregate base _ _ | .joinOne base _ _ _
  | .union base _ => Source.defaultIdent base

/-- `func.and_(a, b)`: a `SqlFunctionColumnExpression("and", [a, b])`. -/
def funcAnd (a b : ColumnExpression) : ColumnExpression :=
  .sqlFunction none "and" [.expr a, .expr b] false

/-- `func.cases(*cs, other=o)` with the non-expression operands already
coerced to `PyValue` expressions by the callers below, exactly as
`func.cases` itself would coerce them. -/
def funcCases (cs : List (ColumnExpression × ColumnExpression))
    (other : ColumnExpression) : ColumnExpression :=
  .cases none cs other

/-- `func.count()`: `SqlFunctionColumnExpression("count", [None])`. -/
def funcCount : ColumnExpression :=
  .sqlFunction none "count" [.lit .none] false

/-- `func.count_if(c)`: `sum(cases((c, 1), other=0))`. -/
def funcCountIf (c : ColumnExpression) : ColumnExpression :=
  .sqlFunction none "sum"
    [.expr (.cases none [(c, .pyValue none (.int 1))] (.pyValue none (.int 0)))]
    false

/-- `FUNNEL_COUNT_COLUMN_NAME` (`model/model.py`). -/
def FUNNEL_COUNT_COLUMN_NAME : String := "entities"

mutual

/-- Structural equality of wire values (Python `==` on the JSON-shaped
dicts, used by `utils/equals.py: deep_equal`). -/
def wireBEq (a b : Wire) : Bool :=
  match a, b with
  | .null, .null => true
  | .bool x, .bool y => x == y
  | .int x, .int y => x == y
  | .float x, .float y => x == y
  | .str x, .str y => x == y
  | .arr xs, .arr ys => wireListBEq xs ys
  | .obj xs, .obj ys => wireFieldsBEq xs ys
  | .rawDatetime x, .rawDatetime y => x == y
  | .rawDate x, .rawDate y => x == y
  | .rawTimedelta x, .rawTimedelta y => x == y
  | .rawTimeinterval x, .rawTimeinterval y => x == y
  | .taggedDatetime x, .taggedDatetime y => x == y
  | .taggedDate x, .taggedDate y => x == y
  | .taggedTimedelta x, .taggedTimedelta y => x == y
  | .taggedTimeinterval u x, .taggedTimeinterval v y => u == v && x == y
  | _, _ => false
termination_by structural a

/-- Structural equality of wire arrays. -/
def wireListBEq (xs ys : List Wire) : Bool :=
  match xs, ys with
  | [], [] => true
  | x :: xs, y :: ys => wireBEq x y && wireListBEq xs ys
  | _, _ => false
termination_by structural xs

/-- Structural equality of wire objects (Python dicts built in the same
insertion order compare field-by-field). -/
def wireFieldsBEq (xs ys : List (String × Wire)) : Bool :=
  match xs, ys with
  | [], [] => true
  | (k, x) :: xs, (l, y) :: ys => k == l && wireBEq x y && wireFieldsBEq xs ys
  | _, _ => false
termination_by structural xs

end

/-- `deep_equal(namespace._through_foreign_key_attr, activity_schema.group)`:
compares the two wire forms; a `None` foreign-key attribute has no
`_to_wire_format` and raises `AttributeError`. -/
def deepEqualFkGroup (fk : Option ColumnExpression)
    (group : ColumnExpression) : Except PyErr Bool :=
  match fk with
  | none => .error .attributeError
  | some f => do
    let aw ← ceToWire f
    let bw ← ceToWire group
    .ok (wireBEq aw bw)

/-- The namespace filter in `match_steps`: keep a namespace iff its
identifier is not a step name (checked first, short-circuiting) and its
foreign-key attribute deep-equals the activity schema's group. -/
def filterPreservedNss : List ModelNamespace → List String →
    ColumnExpression → Except PyErr (List ModelNamespace)
  | [], _, _ => .ok []
  | ns :: rest, stepNames, group =>
    if stepNames.contains ns.identifier then
      filterPreservedNss rest stepNames group
    else do
      let keep ← deepEqualFkGroup ns.throughForeignKeyAttr group
      let r ← filterPreservedNss rest stepNames group
      .ok (if keep then ns :: r else r)

/-- A positional argument of `with_attributes`: a column expression, or a
string interpreted as a column name. -/
inductive AttrArg where
  | expr (e : ColumnExpression)
  | name (s : String)

/-- The `normalize` lambda of `with_attributes` (`column(str)` for
strings). -/
def AttrArg.normalize : AttrArg → ColumnExpression
  | .expr e => e
  | .name s => .columnName none s none

/-- Mutator body of `Model.with_connection`. -/
def withConnectionB (conn : Connection) (m : Model) : Except PyErr Model :=
  .ok (m.setConnection (some conn))

/-- Mutator body of `Model.with_source`: a truthy `sql_query` selects a SQL
text source, otherwise a table-name source. -/
def withSourceB (table : String) (schema : Option String)
    (sqlQuery : Option String) (m : Model) : Except PyErr Model :=
  .ok (m.setSource (some (match sqlQuery with
    | some q =>
      if q.data.isEmpty then Source.tableName table schema
      else Source.sqlTextSrc q
    | none => Source.tableName table schema)))

/-- Mutator body of `Model.with_attributes`: add each positional argument,
then each keyword argument renamed with `.named`. -/
def withAttributesB (args : List AttrArg) (kwargs : List (String × AttrArg))
    (m : Model) : Except PyErr Model := do
  let a1 ← args.foldlM (fun acc arg => ceMapAdd acc arg.normalize)
    m.attributes
  let a2 ← kwargs.foldlM (fun acc kv => do
    let e ← ceNamed kv.2.normalize kv.1
    ceMapAdd acc e) a1
  .ok (m.setAttributes a2)

/-- Mutator body of `Model.with_measures`. -/
def withMeasuresB (args : List ColumnExpression)
    (kwargs : List (String × ColumnExpression)) (m : Model) :
    Except PyErr Model := do
  let m1 ← args.foldlM (fun acc e => ceMapAdd acc e) m.measures
  let m2 ← kwargs.foldlM (fun acc kv => do
    let e ← ceNamed kv.2 kv.1
    ceMapAdd acc e) m1
  .ok (m.setMeasures m2)

/-- Mutator body of `Model.with_join_one`: validate the condition inputs,
resolve the relation name (explicit `named`, else the joined source's
default identifier), build the namespace (whose foreign-key attribute is
set when `foreign_key` is given without `condition`), form the join
predicate, add the namespace and wrap the source in a `JoinOneSource`. -/
def withJoinOneB (joined : Model) (foreignKey : Option ColumnExpression)
    (condition : Option ColumnExpression) (named : Option String)
    (dropUnmatched : Bool) (m : Model) : Except PyErr Model := do
  match foreignKey, condition with
  | none, none =>
    .error (.valueError "with_join_one must specify a join condition")
  | _, _ =>
    let named0 := match named with
      | some s => if s.data.isEmpty then none else some s
      | none => none
    let relationName ← match named0 with
      | some s => Except.ok s
      | none =>
        match joined.source with
        | none => Except.error PyErr.attributeError
        | some js =>
          match js.defaultIdent with
          | some d =>
            if d.data.isEmpty then
              Except.error (PyErr.valueError "join has no identifier")
            else Except.ok d
          | none => Except.error (PyErr.valueError "join has no identifier")
    let fkAttr := match foreignKey, condition with
      | some fk, none => some fk
      | _, _ => none
    let relation := ModelNamespace.mk relationName joined fkAttr
    let joinPredicate ← match foreignKey, condition with
      | some fk, none =>
        Except.ok (ColumnExpression.binaryOp none fk
          (ceDisambiguated joined.primaryKey relationName) "=" [])
      | some fk, some c =>
        Except.ok (funcAnd
          (ColumnExpression.binaryOp none fk
            (ceDisambiguated joined.primaryKey relationName) "=" []) c)
      | none, some c => Except.ok c
      | none, none =>
        Except.error (PyErr.valueError "with_join_one must specify a join condition")
    let s ← requireSource m
    .ok ((m.setNamespaces (imAddNs m.namespaces relation)).setSource
      (some (Source.joinOne s relation joinPredicate dropUnmatched)))

/-- Mutator body of `Model.aggregate`: wrap the source, reset attributes to
column references named after the groups and measures, clear measures and
namespaces. -/
def aggregateB (measures : List ColumnExpression)
    (groups : List ColumnExpression) (m : Model) : Except PyErr Model := do
  let s ← requireSource m
  let attrs ← (groups ++ measures).mapM (fun c => do
    let id ← ceIdentifier c
    Except.ok (ColumnExpression.columnName none id none))
  .ok ((((m.setSource (some (.aggregate s groups measures))).setAttributes
    attrs).setMeasures []).setNamespaces [])

/-- Mutator body of `Model.pick`: wrap the source, reset attributes to
column references for the non-star columns, clear namespaces and
measures. -/
def pickB (columns : List ColumnExpression) (m : Model) :
    Except PyErr Model := do
  let s ← requireSource m
  let attrs ← (columns.filter (fun c => !c.isStar)).mapM (fun c => do
    let id ← ceIdentifier c
    Except.ok (ColumnExpression.columnName none id none))
  .ok ((((m.setSource (some (.pick s columns))).setAttributes
    attrs).setNamespaces []).setMeasures [])

/-- Mutator body of `Model.filter`. -/
def filterB (condition : ColumnExpression) (m : Model) :
    Except PyErr Model := do
  let s ← requireSource m
  .ok (m.setSource (some (.filterSrc s condition)))

/-- Mutator body of `Model.sort`. -/
def sortB (sortBy : ColumnExpression) (dir nulls : String) (m : Model) :
    Except PyErr Model := do
  let s ← requireSource m
  .ok (m.setSource (some (.sortSrc s sortBy dir nulls)))

/-- Mutator body of `Model.limit`. -/
def limitB (count offset : Int) (m : Model) : Except PyErr Model := do
  let s ← requireSource m
  .ok (m.setSource (some (.limitSrc s count offset)))

/-- Mutator body of `Model.union_all`: wrap both sources in a
`UnionSource` and clear namespaces. -/
def unionAllB (other : Model) (m : Model) : Except PyErr Model := do
  let s ← requireSource m
  let s2 ← requireSource other
  .ok ((m.setSource (some (.union s s2))).setNamespaces [])

/-- Mutator body of `Model.with_custom_meta`. -/
def withCustomMetaB (name : String) (value : PyLit) (m : Model) :
    Except PyErr Model :=
  .ok (m.setCustomMeta (dictSetLit m.customMeta name value))

/-- Mutator body of `Model.match_steps`: normalize the activity schema and
steps, wrap the source in a `MatchStepsSource`, keep only the namespaces
joined exactly on the group (reattaching them via `with_join_one.mutate`),
add a self-join namespace per step, rebuild attributes (group column,
`last_matched_step_name`, `last_matched_step_index`, partition columns),
set the primary key to the group, rebuild the measures (an `entities`
count and a per-step count), and clear the activity schema. -/
def matchStepsB (steps : List StepInput)
    (group timestamp eventKey : Option ColumnExpression)
    (partitionStartEvents : Option (List ColumnExpression))
    (timeLimit : Option PyTimedelta) (m : Model) : Except PyErr Model := do
  let eventsModel := m
  let aSch ← match group, timestamp, eventKey with
    | some g, some t, some e => Except.ok (ModelActivitySchema.mk g t e)
    | _, _, _ =>
      match m.activitySchema with
      | some a => Except.ok a
      | none =>
        Except.error (PyErr.valueError
          "match_steps requires the model to have an activity schema")
  if steps.isEmpty then
    Except.error (PyErr.valueError
      "match_steps requires at least one step to match")
  else do
    let stepConditions ← normalizeSteps steps aSch
    let s0 ← requireSource m
    let m1 := m.setSource (some (.matchSteps s0 aSch stepConditions
      (partitionStartEvents.getD []) timeLimit))
    let stepNames ← ceListIdentifiers stepConditions
    let nss ← filterPreservedNss m1.namespaces stepNames aSch.group
    let m2 := m1.setNamespaces nss
    let m3 ← nss.foldlM (fun acc ns =>
      withJoinOneB ns.nestedModel ns.throughForeignKeyAttr none
        (some ns.identifier) false acc) m2
    let m4 := m3.setNamespaces (stepNames.foldl
      (fun acc sid => imAddNs acc (ModelNamespace.mk sid eventsModel none))
      m3.namespaces)
    let groupId ← ceIdentifier aSch.group
    let n : Int := Int.ofNat stepConditions.length
    let revNames := stepNames.reverse
    let lastNamePairs := revNames.map (fun sid =>
      (ColumnExpression.binaryOp none (ceDisambiguated aSch.timestamp sid)
          (.pyValue none .none) "!=" [],
        ColumnExpression.pyValue none (.str sid)))
    let lastName ← ceNamed (funcCases lastNamePairs (.pyValue none .none))
      "last_matched_step_name"
    let a1 ← ceMapAdd [ColumnExpression.columnName none groupId none] lastName
    let idxPairs := revNames.enum.map (fun p =>
      (ColumnExpression.binaryOp none (ceDisambiguated aSch.timestamp p.2)
          (.pyValue none .none) "!=" [],
        ColumnExpression.pyValue none (.int (n - 1 - Int.ofNat p.1))))
    let lastIdx ← ceNamed (funcCases idxPairs (.pyValue none .none))
      "last_matched_step_index"
    let a2 ← ceMapAdd a1 lastIdx
    let a3 ← (partitionStartEvents.getD []).foldlM (fun acc p => do
      let pid ← ceIdentifier p
      let e ← ceNamed (ColumnExpression.columnName none pid none) pid
      ceMapAdd acc e) a2
    let m5 := (m4.setAttributes a3).setPrimaryKey aSch.group
    let cnt ← ceNamed funcCount FUNNEL_COUNT_COLUMN_NAME
    let ms1 ← ceMapAdd [] cnt
    let ms2 ← stepNames.foldlM (fun acc sid => do
      let e ← ceNamed (funcCountIf (ColumnExpression.binaryOp none
          (ceDisambiguated aSch.timestamp sid) (.pyValue none .none) "!=" []))
        (sid ++ "_count")
      ceMapAdd acc e) ms1
    .ok ((m5.setMeasures ms2).setActivitySchema none)

/-- `builder_method`: deep-copy `self` into a fresh heap cell, run the
mutator on the copy, return the handle of the copy.  A raising mutator
propagates and no handle is returned (the copy is discarded). -/
def builderMethod (body : Model → Except PyErr Model) (heap : List Model)
    (self : Nat) : Except PyErr (List Model × Nat) :=
  match heap.get? self with
  | none => Except.error PyErr.attributeError
  | some m =>
    match body m with
    | .error e => .error e
    | .ok m2 => .ok (heap ++ [m2], heap.length)

/-- The heap after a builder call (unchanged when the mutator raised,
since the copy is discarded). -/
def builderRunHeap (body : Model → Except PyErr Model) (heap : List Model)
    (self : Nat) : List Model :=
  match builderMethod body heap self with
  | .ok (h2, _) => h2
  | .error _ => heap

/-- The handle returned by a builder call (meaningful only on success). -/
def builderRunAddr (body : Model → Except PyErr Model) (heap : List Model)
    (self : Nat) : Nat :=
  match builderMethod body heap self with
  | .ok (_, r) => r
  | .error _ => self

/-- A concrete model used to evaluate claim theorems. -/
def sampleModel : Model :=
  .mk (some (.bigquery none none none)) (some (.tableName "orders" none))
    [] [] [] (.columnName none "id" none) none [] none

/-- A second concrete model (with an inferable join identifier). -/
def sampleJoined : Model :=
  .mk (some (.bigquery none none none)) (some (.tableName "customers" none))
    [] [] [] (.columnName none "id" none) none [] none

/-! ## The iterable branch of `ColumnExpression.in_`
(`model/column_expression/column_expression.py`) and the SQL three-valued
semantics of its output. -/

/-- Python `value is None` on a literal. -/
def PyLit.isNone : PyLit → Bool
  | .none => true
  | _ => false

mutual

/-- Structural equality of Python literal values (SQL `=` on constants). -/
def pyLitBEq (a b : PyLit) : Bool :=
  match a, b with
  | .none, .none => true
  | .bool x, .bool y => x == y
  | .int x, .int y => x == y
  | .float x, .float y => x == y
  | .str x, .str y => x == y
  | .list xs, .list ys => pyLitListBEq xs ys
  | .datetime x, .datetime y => x == y
  | .date x, .date y => x == y
  | .timedelta x, .timedelta y => x == y
  | .timeinterval x, .timeinterval y => x == y
  | _, _ => false
termination_by structural a

/-- Structural equality of literal lists. -/
def pyLitListBEq (xs ys : List PyLit) : Bool :=
  match xs, ys with
  | [], [] => true
  | x :: xs, y :: ys => pyLitBEq x y && pyLitListBEq xs ys
  | _, _ => false
termination_by structural xs

end

/-- `func.or_(a, b)`: a `SqlFunctionColumnExpression("or", [a, b])`. -/
def funcOr (a b : ColumnExpression) : ColumnExpression :=
  .sqlFunction none "or" [.expr a, .expr b] false

/-- The iterable branch of `ColumnExpression.in_` for a list of literal
values: filter out `None`s, build the `IN` condition over the non-null
values when any exist, and combine it with an explicit null check —
`self == None` joined by `or_` when the list held a `None`, else
`self != None` joined by `and_`; with no `IN` condition at all the null
check alone is returned. -/
def ceIn (x : ColumnExpression) (vs : List PyLit) : ColumnExpression :=
  let nonNull := vs.filter (fun v => !v.isNone)
  let hasNull := vs.any (fun v => v.isNone)
  let nullCheck :=
    if hasNull then ColumnExpression.binaryOp none x (.pyValue none .none) "=" []
    else ColumnExpression.binaryOp none x (.pyValue none .none) "!=" []
  if nonNull.isEmpty then nullCheck
  else
    let inExpr :=
      ColumnExpression.binaryOp none x (.pyValue none (.list nonNull)) "IN" []
    if hasNull then funcOr inExpr nullCheck else funcAnd inExpr nullCheck

/-- The SQL value of an expression in a row, with `env` giving the row's
value for opaque expressions (a `None` is SQL `NULL`); a `PyValue` literal
denotes itself. -/
def sqlEvalVal (env : ColumnExpression → Option PyLit) :
    ColumnExpression → Option PyLit
  | .pyValue _ .none => none
  | .pyValue _ v => some v
  | e => env e

/-- Kleene (SQL three-valued) disjunction; `none` is UNKNOWN. -/
def kleeneOr : Option Bool → Option Bool → Option Bool
  | some true, _ => some true
  | _, some true => some true
  | some false, some false => some false
  | _, _ => none

/-- Kleene (SQL three-valued) conjunction; `none` is UNKNOWN. -/
def kleeneAnd : Option Bool → Option Bool → Option Bool
  | some false, _ => some false
  | _, some false => some false
  | some true, some true => some true
  | _, _ => none

/-- SQL three-valued truth of the boolean shapes `in_` produces, as the
compiler renders them: comparisons against a `None` literal become
`IS NULL` / `IS NOT NULL` (total booleans, `compile_none_comparison`),
`IN` over a literal list follows SQL membership (UNKNOWN when the needle
is NULL), and `and`/`or` functions are Kleene connectives. -/
def sqlEvalB (env : ColumnExpression → Option PyLit) :
    ColumnExpression → Option Bool
  | .binaryOp _ l (.pyValue _ .none) "=" _ =>
    some (sqlEvalVal env l).isNone
  | .binaryOp _ l (.pyValue _ .none) "!=" _ =>
    some (!(sqlEvalVal env l).isNone)
  | .binaryOp _ l (.pyValue _ (.list ws)) "IN" _ =>
    (match sqlEvalVal env l with
    | none => none
    | some v =>
      if ws.any (fun w => pyLitBEq w v) then some true
      else if ws.any (fun w => w.isNone) then none
      else some false)
  | .sqlFunction _ "or" [.expr a, .expr b] _ =>
    kleeneOr (sqlEvalB env a) (sqlEvalB env b)
  | .sqlFunction _ "and" [.expr a, .expr b] _ =>
    kleeneAnd (sqlEvalB env a) (sqlEvalB env b)
  | _ => none

/-! ## Week granularity compilation for Postgres
(`run/compile/column_expression/compilers/granularity.py`,
`run/compile/utils/datetime.py`). -/

/-- A fragment of compiled SQL: a compiled base expression, a
`date_trunc` call, a `literal_column` text, and `-`/`+` arithmetic. -/
inductive SqlFrag where
  | col (name : String)
  | dateTrunc (grain : String) (e : SqlFrag)
  | litCol (text : String)
  | sub (a b : SqlFrag)
  | add (a b : SqlFrag)
deriving DecidableEq, Repr

/-- `_validate_granularity`: known granularities pass through, anything
else raises `AssertionError`. -/
def validateGranularity (grain : String) : Except PyErr String :=
  if ["second", "minute", "hour", "day", "week", "month", "quarter",
      "year"].contains grain
  then .ok grain
  else .error (.assertionError ("Invalid granularity: " ++ grain))

/-- `DAY_OF_WEEK_MAPPING[first_day_of_week]` (a missing key raises
`KeyError`). -/
def dayOfWeekMapping (firstDay : String) : Except PyErr Int :=
  match firstDay with
  | "MONDAY" => .ok 0
  | "TUESDAY" => .ok 1
  | "WEDNESDAY" => .ok 2
  | "THURSDAY" => .ok 3
  | "FRIDAY" => .ok 4
  | "SATURDAY" => .ok 5
  | "SUNDAY" => .ok 6
  | _ => .error (.keyError firstDay)

/-- The Postgres `literal_column` interval spelling used by
`Postgres_GC.compile_week_offset`. -/
def pgInterval (offset : Int) : String := s!"'{offset} days' :: interval"

/-- `Postgres_GC.compile` (Redshift uses the same class): dispatch to
`compile_week_offset` only when the granularity is `week` AND the offset is
non-zero, else `compile_default` emits a plain `date_trunc`. -/
def postgresGC (base : SqlFrag) (grain : String) (offset : Int) : SqlFrag :=
  if grain == "week" && offset != 0 then
    .add (.dateTrunc "week" (.sub base (.litCol (pgInterval offset))))
      (.litCol (pgInterval offset))
  else .dateTrunc grain base

/-- `compile_granularity_column_expression` specialized to the Postgres
dialect: validate the granularity, map the first-day-of-week setting to an
offset, and dispatch. -/
def compileGranularityPostgres (firstDay : String) (grain : String)
    (base : SqlFrag) : Except PyErr SqlFrag := do
  let g ← validateGranularity grain
  let off ← dayOfWeekMapping firstDay
  .ok (postgresGC base g off)

/-! ## Constant folding of datetime arithmetic
(`run/compile/column_expression/compilers/binary_op.py`,
`run/compile/utils/datetime.py`).  `datetime.now()` is passed in as the
`now` parameter. -/

/-- A constant timestamp value: a `datetime` or a `date`. -/
inductive TsVal where
  | dt (d : PyDatetime)
  | date (d : PyDate)
deriving DecidableEq, Repr

/-- A constant interval value: a `timedelta`, or a `timeinterval` (which
the code converts to a `relativedelta`). -/
inductive DeltaVal where
  | td (t : PyTimedelta)
  | rel (ti : Timeinterval)
deriving DecidableEq, Repr

/-- `try_get_constant_ts_value`: a `SqlFunctionColumnExpression` named
`now` yields the current datetime; a `PyValue` holding a datetime or date
yields it; anything else is no constant. -/
def tryGetConstantTsValue (now : PyDatetime) :
    ColumnExpression → Option TsVal
  | .sqlFunction _ fn _ _ => if fn == "now" then some (.dt now) else none
  | .pyValue _ (.datetime d) => some (.dt d)
  | .pyValue _ (.date d) => some (.date d)
  | _ => none

/-- `try_get_datetime_delta_value`: a `PyValue` holding a `timedelta` or a
`timeinterval`. -/
def tryGetDatetimeDeltaValue : ColumnExpression → Option DeltaVal
  | .pyValue _ (.timedelta t) => some (.td t)
  | .pyValue _ (.timeinterval ti) => some (.rel ti)
  | _ => none

/-- The in-process shift `ts + delta` (or `ts - delta` when `plus` is
false): Python `datetime`/`date` arithmetic with `timedelta` and
`relativedelta`.  A `date` shifted by a `relativedelta` with a time part
is promoted to a `datetime` (see `PyDate.addInterval`). -/
def TsVal.shift (v : TsVal) (d : DeltaVal) (plus : Bool) : PyLit :=
  match v, d with
  | .dt x, .td t => .datetime (x.addTimedelta (if plus then t else ⟨-t.us⟩))
  | .dt x, .rel ti =>
    .datetime (x.addInterval (if plus then ti else ⟨ti.unit, -ti.num⟩))
  | .date x, .td t => .date (x.addTimedelta (if plus then t else ⟨-t.us⟩))
  | .date x, .rel ti =>
    x.addInterval (if plus then ti else ⟨ti.unit, -ti.num⟩)

/-- `_try_lift_binary_op`: for `+`/`-`, fold `datetime ± interval`, and
`interval + datetime` (but not `interval - datetime`), into a fresh
`PyValue`. -/
def tryLiftBinaryOp (now : PyDatetime) (e : ColumnExpression) :
    Option ColumnExpression :=
  match e with
  | .binaryOp _ l r op _ =>
    if op == "+" || op == "-" then
      match tryGetConstantTsValue now l, tryGetDatetimeDeltaValue r with
      | some lv, some rd => some (.pyValue none (lv.shift rd (op == "+")))
      | _, _ =>
        match tryGetDatetimeDeltaValue l, tryGetConstantTsValue now r with
        | some ld, some rv =>
          if op == "+" then some (.pyValue none (rv.shift ld true)) else none
        | _, _ => none
    else none
  | _ => none

/-- `preprocess_binary_op_column_expression` at a node whose children are
already preprocessed: the lifted `PyValue` when the fold applies, else the
node unchanged. -/
def preprocessBinaryOp (now : PyDatetime) (e : ColumnExpression) :
    ColumnExpression :=
  match tryLiftBinaryOp now e with
  | some v => v
  | none => e

/-! ## Match-steps step labels and the 62-step limit
(`run/compile/source/compilers/match_steps.py`). -/

/-- The ordered step alphabet `A..Z a..z 0..9` of `_step_hash_id`. -/
def STEP_HASH_CHARS : List Char :=
  "ABCDEFGHIJKLMNOPQRSTUVWXYZabcdefghijklmnopqrstuvwxyz0123456789".data

/-- `_step_hash_id(step_index)`: raise a user-visible compilation error at
or beyond the alphabet length, else index the alphabet. -/
def stepHashId (stepIndex : Nat) : Except PyErr Char :=
  if STEP_HASH_CHARS.length ≤ stepIndex then
    .error (.userCompilationError "Too many unique step types to match against.")
  else
    match STEP_HASH_CHARS.get? stepIndex with
    | some c => .ok c
    | none => .error .indexError

/-- The per-step labeling loop of `compile_match_steps_source`: step `i`
is labeled `_step_hash_id(i)`, enumerating from `start`. -/
def stepLabelsAux : Nat → Nat → Except PyErr (List Char)
  | _, 0 => .ok []
  | start, n + 1 => do
    let c ← stepHashId start
    let rest ← stepLabelsAux (start + 1) n
    .ok (c :: rest)

/-- The labels of an `n`-step `match_steps` compilation. -/
def stepLabels (n : Nat) : Except PyErr (List Char) := stepLabelsAux 0 n

/-! ## CTE reuse via alias checkpoints
(`run/compile/source/compile_source.py`, `run/compile/context.py`,
`run/compile/query_layer.py`, `utils/stable_key.py`).  The sha256 of the
canonically-dumped wire JSON is modelled by the wire value itself (the
hash is injective on the dumps this code produces); SQLAlchemy alias
references are modelled by the numeric CTE ids `QueryContext`'s name
counter produces. -/

/-- The compilation context slice relevant to checkpoints: the alias
checkpoint cache, the CTE name counter, and the CTEs emitted so far. -/
structure QueryCtxM where
  cache : List (Wire × Nat)
  nextCte : Nat
  ctes : List Nat

/-- Dict lookup keyed by the stable wire key. -/
def cacheLookup : List (Wire × Nat) → Wire → Option Nat
  | [], _ => none
  | (k, v) :: rest, w => if wireBEq k w then some v else cacheLookup rest w

/-- Dict assignment keyed by the stable wire key. -/
def cacheInsert : List (Wire × Nat) → Wire → Nat → List (Wire × Nat)
  | [], w, v => [(w, v)]
  | (k, v0) :: rest, w, v =>
    if wireBEq k w then (w, v) :: rest else (k, v0) :: cacheInsert rest w v

/-- The result-layer slice relevant to checkpoints: what the layer selects
from (a cached/chained reference id) and `layer.source`. -/
structure SelLayer where
  fromRef : Option Nat
  source : Option Source

/-- `compile_source`: on a checkpoint hit, return a fresh layer selecting
`*` from the cached reference — its `source` is NOT set — and touch no
state; otherwise compile through the registry (abstracted as `cf`) and set
`layer.source`. -/
def compileSourceC (cf : Source → QueryCtxM → SelLayer × QueryCtxM)
    (s : Source) (ctx : QueryCtxM) : Except PyErr (SelLayer × QueryCtxM) := do
  let k ← srcToWire s
  match cacheLookup ctx.cache k with
  | some ref => .ok ({ fromRef := some ref, source := none }, ctx)
  | none =>
    let (layer, ctx2) := cf s ctx
    .ok ({ layer with source := some s }, ctx2)

/-- `QueryLayer.chained`: allocate one new CTE for the base layer, return
a fresh layer selecting from it, and — only when the base layer has its
`source` set — register the alias checkpoint for that source. -/
def chainedC (l : SelLayer) (ctx : QueryCtxM) :
    Except PyErr (SelLayer × QueryCtxM) :=
  let ref := ctx.nextCte
  let ctx1 : QueryCtxM :=
    { ctx with nextCte := ctx.nextCte + 1, ctes := ctx.ctes ++ [ref] }
  match l.source with
  | some s => do
    let k ← srcToWire s
    .ok ({ fromRef := some ref, source := none },
      { ctx1 with cache := cacheInsert ctx1.cache k ref })
  | none => .ok ({ fromRef := some ref, source := none }, ctx1)

/-- `chainedC` as a total function (identity on the inputs when the wire
serialization raised). -/
def chainedRun (l : SelLayer) (ctx : QueryCtxM) : SelLayer × QueryCtxM :=
  match chainedC l ctx with
  | .ok r => r
  | .error _ => (l, ctx)

/-- The stable checkpoint key of a source (its wire form; `Wire.null` when
serialization raised, unused under the theorems' hypotheses). -/
def wireKeyOf (s : Source) : Wire :=
  match srcToWire s with
  | .ok w => w
  | .error _ => .null

/-! ## Join elision on finalize
(`run/compile/source/compilers/join_one.py`,
`run/compile/query_layer.py`).  The on-finalize closures are
defunctionalized: the join handler carries the join's namespace name, its
ON-condition (compiled against the frozen layer when run), and
`drop_unmatched`. -/

/-- A defunctionalized `on_finalize` handler. -/
inductive JHandler where
  | joinOne (joinName : String) (onCondition : ColumnExpression)
      (dropUnmatched : Bool)

/-- The layer slice relevant to join finalization: namespace names
referenced by compiled expressions, the JOIN clauses attached to the
query (name, compiled ON-condition, isouter), and the pending handlers. -/
structure JLayer where
  usedNames : List String
  joins : List (String × ColumnExpression × Bool)
  handlers : List JHandler

/-- Run one handler: the JOIN clause is added, with
`isouter = not drop_unmatched`, if and only if the join's namespace name
is among the layer's used names. -/
def runHandler (l : JLayer) : JHandler → JLayer
  | .joinOne name cond drop =>
    if l.usedNames.contains name then
      { l with joins := l.joins ++ [(name, cond, !drop)] }
    else l

/-- Drain handlers first-in first-out. -/
def runHandlers : List JHandler → JLayer → JLayer
  | [], l => l
  | h :: rest, l => runHandlers rest (runHandler l h)

/-- `QueryLayer.finalized`: pop and run every pending handler in
registration order. -/
def finalizedJ (l : JLayer) : JLayer :=
  runHandlers l.handlers { l with handlers := [] }

/-- `compile_join_one_source`, at the layer slice: register the
on-finalize join handler (the JOIN itself is not added here). -/
def compileJoinOneJ (joinName : String) (onCondition : ColumnExpression)
    (dropUnmatched : Bool) (l : JLayer) : JLayer :=
  { l with handlers := l.handlers ++ [.joinOne joinName onCondition dropUnmatched] }

/-! Small round-trip lemmas for the leaf encoders. -/

theorem except_bind_ok (a : α) (f : α → Except PyErr β) :
    Except.bind (Except.ok a) f = f a := rfl

theorem except_bind_err (e : PyErr) (f : α → Except PyErr β) :
    Except.bind (Except.error e) f = Except.error e := rfl

mutual

theorem rawRT (v : PyLit) : rawFromWire (rawToWire v) = .ok v := by
  match v with
  | .none | .bool _ | .int _ | .float _ | .str _ => rfl
  | .datetime _ | .date _ | .timedelta _ | .timeinterval _ => rfl
  | .list xs =>
    rw [rawToWire, rawFromWire]
    simp only [rawListRT xs]
    rfl

theorem rawListRT (xs : List PyLit) :
    rawListFromWire (rawListToWire xs) = .ok xs := by
  match xs with
  | [] => rfl
  | v :: rest =>
    rw [rawListToWire, rawListFromWire]
    simp only [rawRT v, rawListRT rest]
    rfl

end

theorem primRT (v : PyLit) (h : goodTopVal v = true) :
    primFromWire (primToWire v) = .ok v := by
  match v with
  | .datetime _ | .date _ | .timeinterval _ => rfl
  | .timedelta t =>
    simp only [goodTopVal, PyTimedelta.isWholeSeconds, beq_iff_eq] at h
    simp only [primToWire, primFromWire, PyTimedelta.wholeSeconds]
    have : t.us.tdiv usPerSecond * usPerSecond = t.us := by
      have hd : usPerSecond ∣ t.us := Int.dvd_of_emod_eq_zero h
      exact Int.tdiv_mul_cancel hd
    rw [this]
  | .none | .bool _ | .int _ | .float _ | .str _ => rfl
  | .list xs =>
    show rawFromWire (rawToWire (.list xs)) = Except.ok (.list xs)
    exact rawRT _

theorem optsRT (opts : List (String × OptVal)) :
    optValsFromWire (opts.map fun kv => (kv.1, optValWire kv.2)) = .ok opts := by
  induction opts with
  | nil => rfl
  | cons kv rest ih =>
    obtain ⟨k, v⟩ := kv
    have step : optValsFromWire ((k, optValWire v) ::
        (rest.map fun kv => (kv.1, optValWire kv.2))) =
        (optValsFromWire (rest.map fun kv => (kv.1, optValWire kv.2)) >>=
          fun vs => Except.ok ((k, v) :: vs)) := by
      cases v <;> rfl
    simp only [List.map] at step ⊢
    rw [step, ih]
    rfl

theorem metaRT (meta : List (String × PyLit)) :
    customMetaFromWire (meta.map fun kv => (kv.1, rawToWire kv.2)) = .ok meta := by
  induction meta with
  | nil => rfl
  | cons kv rest ih =>
    obtain ⟨k, v⟩ := kv
    simp only [List.map, customMetaFromWire, rawRT, ih]
    rfl

theorem connRT (c : Connection) (h : goodConn c = true) :
    connFromWire (connToWire c) = .ok (some c) := by
  match c with
  | .duckdb _ _ => simp [goodConn] at h
  | .bigquery p i location =>
    simp only [goodConn, Bool.and_eq_true, Option.isNone_iff_eq_none] at h
    obtain ⟨hp, hi⟩ := h
    subst hp; subst hi
    cases location <;> rfl
  | .hashboardData id pid name creds =>
    simp only [goodConn, Option.isNone_iff_eq_none] at h
    subst h
    cases name <;> rfl

theorem lrRT (r : LinkedResource) :
    linkedResourceFromWire (linkedResourceToWire r) = .ok r := by
  obtain ⟨id, aliasName, projectId⟩ := r
  cases aliasName <;> rfl

theorem exceptOk_iff {r : Except PyErr α} : exceptOk r = true ↔ ∃ a, r = .ok a := by
  cases r <;> simp [exceptOk]

theorem bind_ok_p (a : α) (f : α → Except PyErr β) :
    (Except.ok a >>= f) = f a := rfl

theorem bind_err_p (err : PyErr) (f : α → Except PyErr β) :
    ((Except.error err : Except PyErr α) >>= f) = Except.error err := rfl

theorem bind_pure_p (a : α) (f : α → Except PyErr β) :
    ((pure a : Except PyErr α) >>= f) = f a := rfl

theorem bind_ok_elim {x : Except PyErr α} {f : α → Except PyErr β} {b : β}
    (h : (x >>= f) = .ok b) : ∃ a, x = .ok a ∧ f a = .ok b := by
  cases x with
  | ok a => exact ⟨a, rfl, h⟩
  | error e => exact absurd h (by simp [bind_err_p])

/-! Bridge lemmas: evaluating each parser on the exact wire shape its
serializer produces, with the recursively-serialized subwires left
opaque.  Each is definitional once the optional string fields are split
on. -/

set_option maxHeartbeats 8000000

theorem parse_columnName_wire (msi : Option String) (d : Wire) (name : String)
    (nsid : Option String) :
    ceFromWire (.obj [("type", .str "columnExpression"),
      ("subType", .str "columnName"),
      ("manuallySetIdentifier", optStrWire msi), ("__denormalized", d),
      ("columnName", .str name), ("namespaceIdentifier", optStrWire nsid),
      ("_version", .int 6)]) =
    .ok (.columnName msi name nsid) := by
  cases msi <;> cases nsid <;> rfl

theorem parse_sqlText_wire (msi : Option String) (d : Wire) (sql : String)
    (nsid : Option String) (nestedW : List (String × Wire)) :
    ceFromWire (.obj [("type", .str "columnExpression"),
      ("subType", .str "sqlText"),
      ("manuallySetIdentifier", optStrWire msi), ("__denormalized", d),
      ("sql", .str sql), ("namespaceIdentifier", optStrWire nsid),
      ("nestedExpressions", .obj nestedW), ("_version", .int 6)]) =
    (do
      let nested ← cePairsFromWire nestedW
      Except.ok (.sqlText msi sql nsid nested)) := by
  cases msi <;> cases nsid <;> rfl

theorem parse_pyValue_wire (msi : Option String) (d vw : Wire) :
    ceFromWire (.obj [("type", .str "columnExpression"),
      ("subType", .str "pyValue"),
      ("manuallySetIdentifier", optStrWire msi), ("__denormalized", d),
      ("value", vw), ("_version", .int 6)]) =
    (do
      let v ← primFromWire vw
      Except.ok (.pyValue msi v)) := by
  cases msi <;> rfl

theorem parse_binaryOp_wire (msi : Option String) (d lw rw_ : Wire) (op : String)
    (opts : List (String × OptVal)) :
    ceFromWire (.obj [("type", .str "columnExpression"),
      ("subType", .str "binaryOp"),
      ("manuallySetIdentifier", optStrWire msi), ("__denormalized", d),
      ("left", lw), ("right", rw_), ("op", .str op),
      ("options", optionsWire opts), ("_version", .int 6)]) =
    (do
      let l ← ceFromWire lw
      let r ← ceFromWire rw_
      let opts' ← optValsFromWire (opts.map fun kv => (kv.1, optValWire kv.2))
      Except.ok (.binaryOp msi l r op opts')) := by
  cases msi <;> rfl

theorem parse_cases_wire (msi : Option String) (d : Wire) (csW : List Wire)
    (otherW : Wire) :
    ceFromWire (.obj [("type", .str "columnExpression"),
      ("subType", .str "case"),
      ("manuallySetIdentifier", optStrWire msi), ("__denormalized", d),
      ("cases", .arr csW), ("other", otherW), ("_version", .int 6)]) =
    (do
      let cs ← caseListFromWire csW
      let other ← ceFromWire otherW
      Except.ok (.cases msi cs other)) := by
  cases msi <;> rfl

theorem parse_granularity_wire (msi : Option String) (d baseW : Wire)
    (grain : String) :
    ceFromWire (.obj [("type", .str "columnExpression"),
      ("subType", .str "granularity"),
      ("manuallySetIdentifier", optStrWire msi), ("__denormalized", d),
      ("base", baseW), ("granularity", .str grain), ("_version", .int 6)]) =
    (do
      let base ← ceFromWire baseW
      Except.ok (.granularity msi base grain)) := by
  cases msi <;> rfl

theorem parse_formatTimestamp_wire (msi : Option String) (d baseW : Wire)
    (fmt : String) :
    ceFromWire (.obj [("type", .str "columnExpression"),
      ("subType", .str "formatTimestamp"),
      ("manuallySetIdentifier", optStrWire msi), ("__denormalized", d),
      ("base", baseW), ("format", .str fmt), ("_version", .int 6)]) =
    (do
      let base ← ceFromWire baseW
      Except.ok (.formatTimestamp msi base fmt)) := by
  cases msi <;> rfl

theorem parse_sqlFunction_wire (msi : Option String) (d : Wire) (fn : String)
    (argsW : List Wire) (inherit : Bool) :
    ceFromWire (.obj [("type", .str "columnExpression"),
      ("subType", .str "sqlFunction"),
      ("manuallySetIdentifier", optStrWire msi), ("__denormalized", d),
      ("functionName", .str fn), ("args", .arr argsW),
      ("inheritIdentifier", .bool inherit), ("_version", .int 6)]) =
    (do
      let args ← fnArgsFromWire argsW
      Except.ok (.sqlFunction msi fn args false)) := by
  cases msi <;> rfl

theorem parse_subquery_wire (msi : Option String) (d mw : Wire) :
    ceFromWire (.obj [("type", .str "columnExpression"),
      ("subType", .str "subquery"),
      ("manuallySetIdentifier", optStrWire msi), ("__denormalized", d),
      ("model", mw), ("_version", .int 6)]) =
    (do
      let m ← modelFromWire mw
      Except.ok (.subquery msi m)) := by
  cases msi <;> rfl

theorem parse_tableName_wire (table : String) (schema : Option String) :
    srcFromWire (.obj [("type", .str "source"), ("subType", .str "tableName"),
      ("tableName", .str table), ("schema", optStrWire schema),
      ("_version", .int 6)]) =
    .ok (.tableName table schema) := by
  cases schema <;> rfl

theorem parse_sqlTextSrc_wire (sql : String) :
    srcFromWire (.obj [("type", .str "source"), ("subType", .str "sqlText"),
      ("sql", .str sql), ("_version", .int 6)]) =
    .ok (.sqlTextSrc sql) := rfl

theorem parse_pick_wire (bw : Wire) (colsW : List Wire) :
    srcFromWire (.obj [("type", .str "source"), ("subType", .str "pick"),
      ("base", bw), ("columns", .arr colsW), ("_version", .int 6)]) =
    (do
      let base ← srcFromWire bw
      let cols ← ceListFromWire colsW
      Except.ok (.pick base cols)) := rfl

theorem parse_filter_wire (bw cw : Wire) :
    srcFromWire (.obj [("type", .str "source"), ("subType", .str "filter"),
      ("base", bw), ("condition", cw), ("_version", .int 6)]) =
    (do
      let base ← srcFromWire bw
      let cond ← ceFromWire cw
      Except.ok (.filterSrc base cond)) := rfl

theorem parse_sort_wire (bw sw : Wire) (dir nulls : String) :
    srcFromWire (.obj [("type", .str "source"), ("subType", .str "sort"),
      ("base", bw), ("sort", sw), ("dir", .str dir), ("nulls", .str nulls),
      ("_version", .int 6)]) =
    (do
      let base ← srcFromWire bw
      let sortBy ← ceFromWire sw
      Except.ok (.sortSrc base sortBy dir nulls)) := rfl

theorem parse_limit_wire (bw : Wire) (lim offset : Int) :
    srcFromWire (.obj [("type", .str "source"), ("subType", .str "limit"),
      ("base", bw), ("limit", .int lim), ("offset", .int offset),
      ("_version", .int 6)]) =
    (do
      let base ← srcFromWire bw
      Except.ok (.limitSrc base lim offset)) := rfl

theorem parse_aggregate_wire (bw : Wire) (gw mw : List Wire) :
    srcFromWire (.obj [("type", .str "source"), ("subType", .str "aggregate"),
      ("base", bw), ("groups", .arr gw), ("measures", .arr mw),
      ("_version", .int 6)]) =
    (do
      let base ← srcFromWire bw
      let groups ← ceListFromWire gw
      let measures ← ceListFromWire mw
      Except.ok (.aggregate base groups measures)) := rfl

theorem parse_joinOne_wire (bw relW cw : Wire) (b : Bool) :
    srcFromWire (.obj [("type", .str "source"), ("subType", .str "joinOne"),
      ("base", bw), ("relation", relW), ("joinCondition", cw),
      ("dropUnmatched", .bool b), ("_version", .int 6)]) =
    (do
      let base ← srcFromWire bw
      let rel ← nsFromWire relW
      let cond ← ceFromWire cw
      Except.ok (.joinOne base rel cond b)) := rfl

theorem parse_union_wire (bw ow : Wire) :
    srcFromWire (.obj [("type", .str "source"), ("subType", .str "union"),
      ("base", bw), ("unionSource", ow), ("_version", .int 6)]) =
    (do
      let base ← srcFromWire bw
      let other ← srcFromWire ow
      Except.ok (.union base other)) := rfl

theorem parse_matchSteps_wire (bw schW : Wire) (stepsW partsW : List Wire)
    (tlw : Wire) :
    srcFromWire (.obj [("type", .str "source"), ("subType", .str "matchSteps"),
      ("base", bw), ("activitySchema", schW), ("steps", .arr stepsW),
      ("partitionStartEvents", .arr partsW), ("timeLimit", tlw),
      ("_version", .int 6)]) =
    (do
      let aSch ← schFromWire schW
      let ps ← stepsFromWire stepsW
      let parts ← ceListFromWire partsW
      let base ← srcFromWire bw
      let steps ← normalizeSteps ps aSch
      let tl ← (primFromWire tlw >>= fun pv =>
        match pv with
        | .timedelta t => Except.ok (some t)
        | .none => Except.ok none
        | _ => Except.error (PyErr.valueError "bad timeLimit"))
      Except.ok (.matchSteps base aSch steps parts tl)) := rfl

theorem parse_ns_wire (id : String) (mw fkW : Wire) :
    nsFromWire (.obj [("type", .str "modelNamespace"), ("identifier", .str id),
      ("nestedModel", mw), ("throughForeignKeyAttr", fkW),
      ("_version", .int 6)]) =
    (do
      let m ← modelFromWire mw
      let fk ← (if wireTruthy fkW then
          (ceFromWire fkW >>= fun e => Except.ok (some e))
        else Except.ok none)
      Except.ok (.mk id m fk)) := rfl

theorem parse_sch_wire (gw tw ew : Wire) :
    schFromWire (.obj [("type", .str "modelActivitySchema"), ("group", gw),
      ("timestamp", tw), ("eventKey", ew), ("_version", .int 6)]) =
    (do
      let g ← ceFromWire gw
      let t ← ceFromWire tw
      let e ← ceFromWire ew
      Except.ok (.mk g t e)) := rfl

theorem parse_model_wire (cw sw : Wire) (aw mw nw : List Wire) (pw schw : Wire)
    (metaW : List (String × Wire)) (lrw : Wire) :
    modelFromWire (.obj [("type", .str "model"), ("connection", cw),
      ("source", sw), ("attributes", .arr aw), ("measures", .arr mw),
      ("namespaces", .arr nw), ("primaryKey", pw), ("activitySchema", schw),
      ("customMeta", .obj metaW), ("linkedResource", lrw),
      ("_version", .int 6)]) =
    (do
      let conn ← connFromWire cw
      let src ← srcFromWire sw
      let attrs ← ceListFromWire aw
      let measures ← ceListFromWire mw
      let nss ← nsListFromWire nw
      let pk ← ceFromWire pw
      let aSch ← (if wireTruthy schw then
          (schFromWire schw >>= fun a => Except.ok (some a))
        else Except.ok none)
      let meta ← customMetaFromWire metaW
      let lr ← (if wireTruthy lrw then
          (linkedResourceFromWire lrw >>= fun r => Except.ok (some r))
        else Except.ok none)
      Except.ok (.mk conn (some src) attrs measures nss pk aSch meta lr)) := rfl

/-- `List.mapM` of a function that is the identity on `.expr` inputs. -/
theorem mapM_expr_id (steps : List ColumnExpression)
    (f : StepInput → Except PyErr ColumnExpression)
    (hf : ∀ e, f (.expr e) = .ok e) :
    (steps.map StepInput.expr).mapM f = .ok steps := by
  induction steps with
  | nil => rfl
  | cons e rest ih =>
    simp only [List.map_cons, List.mapM_cons, hf, ih, bind_ok_p]
    rfl

/-- `normalize_steps` is the identity on a list of well-identified,
duplicate-free column-expression steps. -/
theorem normalizeSteps_exprs (steps : List ColumnExpression)
    (aSch : ModelActivitySchema) (ids : List String)
    (hids : ceListIdentifiers steps = .ok ids)
    (hdup : hasDuplicate ids = false) :
    normalizeSteps (steps.map .expr) aSch = .ok steps := by
  unfold normalizeSteps
  rw [mapM_expr_id steps _ (fun e => rfl)]
  simp [bind_ok_p, hids, hdup]

theorem lr_truthy (r : LinkedResource) :
    wireTruthy (linkedResourceToWire r) = true := rfl

mutual

/-- Round trip for column expressions on `goodCE` nodes, together with
the dict shape of the serialized form. -/
theorem ceRT : ∀ (e : ColumnExpression), goodCE e = true →
    (ceToWire e >>= ceFromWire) = .ok e ∧
    ∃ fields, ceToWire e = .ok (.obj (("type", Wire.str "columnExpression") :: fields))
  | .columnName msi name nsid, h => by
    unfold goodCE at h
    simp only [Bool.and_true, exceptOk_iff] at h
    obtain ⟨o, hopt⟩ := h
    constructor
    · simp only [ceToWire, hopt, bind_ok_p, List.cons_append, List.nil_append,
        ColumnExpression.typeKey, ColumnExpression.msiOf]
      exact parse_columnName_wire msi _ name nsid
    · simp only [ceToWire, hopt, bind_ok_p, List.cons_append, List.nil_append]
      exact ⟨_, rfl⟩
  | .sqlText msi sql nsid nested, h => by
    unfold goodCE at h
    simp only [Bool.and_eq_true, exceptOk_iff] at h
    obtain ⟨⟨o, hopt⟩, hn⟩ := h
    obtain ⟨nw, hnw, hnp⟩ := bind_ok_elim (pairsRT nested hn)
    constructor
    · simp only [ceToWire, hopt, hnw, bind_ok_p, List.cons_append,
        List.nil_append, ColumnExpression.typeKey, ColumnExpression.msiOf,
        versionField]
      simp only [versionField, HASHQUERY_WIRE_VERSION]
      rw [parse_sqlText_wire]
      simp only [hnp, bind_ok_p]
    · simp only [ceToWire, hopt, hnw, bind_ok_p, List.cons_append, List.nil_append]
      exact ⟨_, rfl⟩
  | .pyValue msi v, h => by
    unfold goodCE at h
    simp only [Bool.and_eq_true, exceptOk_iff] at h
    obtain ⟨⟨o, hopt⟩, hv⟩ := h
    constructor
    · simp only [ceToWire, hopt, bind_ok_p, List.cons_append, List.nil_append,
        ColumnExpression.typeKey, ColumnExpression.msiOf]
      simp only [versionField, HASHQUERY_WIRE_VERSION]
      rw [parse_pyValue_wire]
      simp only [primRT v hv, bind_ok_p]
    · simp only [ceToWire, hopt, bind_ok_p, List.cons_append, List.nil_append]
      exact ⟨_, rfl⟩
  | .binaryOp msi l r op opts, h => by
    unfold goodCE at h
    simp only [Bool.and_eq_true, exceptOk_iff] at h
    obtain ⟨⟨o, hopt⟩, hl, hr⟩ := h
    obtain ⟨lw, hlw, hlp⟩ := bind_ok_elim (ceRT l hl).1
    obtain ⟨rw_, hrw, hrp⟩ := bind_ok_elim (ceRT r hr).1
    constructor
    · simp only [ceToWire, hopt, hlw, hrw, bind_ok_p, List.cons_append,
        List.nil_append, ColumnExpression.typeKey, ColumnExpression.msiOf,
        versionField]
      simp only [versionField, HASHQUERY_WIRE_VERSION]
      rw [parse_binaryOp_wire]
      simp only [hlp, hrp, optsRT, bind_ok_p]
    · simp only [ceToWire, hopt, hlw, hrw, bind_ok_p, List.cons_append,
        List.nil_append]
      exact ⟨_, rfl⟩
  | .cases msi cs other, h => by
    unfold goodCE at h
    simp only [Bool.and_eq_true, exceptOk_iff] at h
    obtain ⟨⟨o, hopt⟩, hcs, ho⟩ := h
    obtain ⟨csw, hcsw, hcsp⟩ := bind_ok_elim (caseRT cs hcs)
    obtain ⟨ow, how, hop⟩ := bind_ok_elim (ceRT other ho).1
    constructor
    · simp only [ceToWire, hopt, hcsw, how, bind_ok_p, List.cons_append,
        List.nil_append, ColumnExpression.typeKey, ColumnExpression.msiOf,
        versionField]
      simp only [versionField, HASHQUERY_WIRE_VERSION]
      rw [parse_cases_wire]
      simp only [hcsp, hop, bind_ok_p]
    · simp only [ceToWire, hopt, hcsw, how, bind_ok_p, List.cons_append,
        List.nil_append]
      exact ⟨_, rfl⟩
  | .granularity msi base grain, h => by
    unfold goodCE at h
    simp only [Bool.and_eq_true, exceptOk_iff] at h
    obtain ⟨⟨o, hopt⟩, hb⟩ := h
    obtain ⟨bw, hbw, hbp⟩ := bind_ok_elim (ceRT base hb).1
    constructor
    · simp only [ceToWire, hopt, hbw, bind_ok_p, List.cons_append,
        List.nil_append, ColumnExpression.typeKey, ColumnExpression.msiOf,
        versionField]
      simp only [versionField, HASHQUERY_WIRE_VERSION]
      rw [parse_granularity_wire]
      simp only [hbp, bind_ok_p]
    · simp only [ceToWire, hopt, hbw, bind_ok_p, List.cons_append, List.nil_append]
      exact ⟨_, rfl⟩
  | .formatTimestamp msi base fmt, h => by
    unfold goodCE at h
    simp only [Bool.and_eq_true, exceptOk_iff] at h
    obtain ⟨⟨o, hopt⟩, hb⟩ := h
    obtain ⟨bw, hbw, hbp⟩ := bind_ok_elim (ceRT base hb).1
    constructor
    · simp only [ceToWire, hopt, hbw, bind_ok_p, List.cons_append,
        List.nil_append, ColumnExpression.typeKey, ColumnExpression.msiOf,
        versionField]
      simp only [versionField, HASHQUERY_WIRE_VERSION]
      rw [parse_formatTimestamp_wire]
      simp only [hbp, bind_ok_p]
    · simp only [ceToWire, hopt, hbw, bind_ok_p, List.cons_append, List.nil_append]
      exact ⟨_, rfl⟩
  | .sqlFunction msi fn args inherit, h => by
    unfold goodCE at h
    simp only [Bool.and_eq_true, exceptOk_iff, Bool.not_eq_true'] at h
    obtain ⟨⟨o, hopt⟩, hni, hargs⟩ := h
    subst hni
    obtain ⟨aw, haw, hap⟩ := bind_ok_elim (argsRT args hargs)
    constructor
    · simp only [ceToWire, hopt, haw, bind_ok_p, List.cons_append,
        List.nil_append, ColumnExpression.typeKey, ColumnExpression.msiOf,
        versionField]
      simp only [versionField, HASHQUERY_WIRE_VERSION]
      rw [parse_sqlFunction_wire]
      simp only [hap, bind_ok_p]
    · simp only [ceToWire, hopt, haw, bind_ok_p, List.cons_append, List.nil_append]
      exact ⟨_, rfl⟩
  | .subquery msi m, h => by
    unfold goodCE at h
    simp only [Bool.and_eq_true, exceptOk_iff] at h
    obtain ⟨⟨o, hopt⟩, hm⟩ := h
    obtain ⟨mw, hmw, hmp⟩ := bind_ok_elim (modelRT m hm)
    constructor
    · simp only [ceToWire, hopt, hmw, bind_ok_p, List.cons_append,
        List.nil_append, ColumnExpression.typeKey, ColumnExpression.msiOf,
        versionField]
      simp only [versionField, HASHQUERY_WIRE_VERSION]
      rw [parse_subquery_wire]
      simp only [hmp, bind_ok_p]
    · simp only [ceToWire, hopt, hmw, bind_ok_p, List.cons_append, List.nil_append]
      exact ⟨_, rfl⟩

theorem ceListRT : ∀ (xs : List ColumnExpression), goodCEList xs = true →
    (ceListToWire xs >>= ceListFromWire) = .ok xs
  | [], _ => rfl
  | e :: rest, h => by
    unfold goodCEList at h
    simp only [Bool.and_eq_true] at h
    obtain ⟨he, hrest⟩ := h
    obtain ⟨ew, hew, hep⟩ := bind_ok_elim (ceRT e he).1
    obtain ⟨ws, hws, hwsp⟩ := bind_ok_elim (ceListRT rest hrest)
    simp only [ceListToWire, hew, hws, bind_ok_p, ceListFromWire, hep, hwsp]

theorem pairsRT : ∀ (xs : List (String × ColumnExpression)),
    goodCEPairs xs = true →
    (nestedPairsToWire xs >>= cePairsFromWire) = .ok xs
  | [], _ => rfl
  | (k, e) :: rest, h => by
    unfold goodCEPairs at h
    simp only [Bool.and_eq_true] at h
    obtain ⟨he, hrest⟩ := h
    obtain ⟨ew, hew, hep⟩ := bind_ok_elim (ceRT e he).1
    obtain ⟨ws, hws, hwsp⟩ := bind_ok_elim (pairsRT rest hrest)
    simp only [nestedPairsToWire, hew, hws, bind_ok_p, cePairsFromWire, hep, hwsp]

theorem caseRT : ∀ (xs : List (ColumnExpression × ColumnExpression)),
    goodCasePairs xs = true →
    (casePairsToWire xs >>= caseListFromWire) = .ok xs
  | [], _ => rfl
  | (c, v) :: rest, h => by
    unfold goodCasePairs at h
    simp only [Bool.and_eq_true] at h
    obtain ⟨⟨hc, hv⟩, hrest⟩ := h
    obtain ⟨cw, hcw, hcp⟩ := bind_ok_elim (ceRT c hc).1
    obtain ⟨vw, hvw, hvp⟩ := bind_ok_elim (ceRT v hv).1
    obtain ⟨ws, hws, hwsp⟩ := bind_ok_elim (caseRT rest hrest)
    simp only [casePairsToWire, hcw, hvw, hws, bind_ok_p, caseListFromWire,
      hcp, hvp, hwsp]

theorem argsRT : ∀ (xs : List FnArg), goodArgs xs = true →
    (fnArgsToWire xs >>= fnArgsFromWire) = .ok xs
  | [], _ => rfl
  | .expr e :: rest, h => by
    unfold goodArgs at h
    simp only [Bool.and_eq_true] at h
    obtain ⟨he, hrest⟩ := h
    obtain ⟨hert, efields, hef⟩ := ceRT e he
    rw [hef] at hert
    simp only [bind_ok_p] at hert
    obtain ⟨ws, hws, hwsp⟩ := bind_ok_elim (argsRT rest hrest)
    simp only [fnArgsToWire, hef, hws, bind_ok_p, fnArgsFromWire]
    simp only [getKey, List.find?, beq_self_eq_true, Option.map_some]
    simp only [show ("columnExpression" == "columnExpression") = true from rfl,
      if_true, hert, hwsp, bind_ok_p]
    rfl
  | .lit v :: rest, h => by
    unfold goodArgs at h
    obtain ⟨ws, hws, hwsp⟩ := bind_ok_elim (argsRT rest h)
    simp only [fnArgsToWire, hws, bind_ok_p]
    cases v <;>
      simp only [rawToWire, fnArgsFromWire, rawFromWire, rawListRT,
        bind_ok_p, hwsp]

theorem stepsRT : ∀ (xs : List ColumnExpression), goodCEList xs = true →
    (ceListToWire xs >>= stepsFromWire) = .ok (xs.map .expr)
  | [], _ => rfl
  | e :: rest, h => by
    unfold goodCEList at h
    simp only [Bool.and_eq_true] at h
    obtain ⟨he, hrest⟩ := h
    obtain ⟨hert, efields, hef⟩ := ceRT e he
    rw [hef] at hert
    simp only [bind_ok_p] at hert
    obtain ⟨ws, hws, hwsp⟩ := bind_ok_elim (stepsRT rest hrest)
    simp only [ceListToWire, hef, hws, bind_ok_p, stepsFromWire, hert, hwsp,
      List.map_cons]

theorem srcRT : ∀ (s : Source), goodSrc s = true →
    (srcToWire s >>= srcFromWire) = .ok s
  | .tableName table schema, _ => by
    simp only [srcToWire, bind_ok_p, List.cons_append, List.nil_append,
      Source.typeKey]
    exact parse_tableName_wire table schema
  | .sqlTextSrc sql, _ => by
    simp only [srcToWire, bind_ok_p, List.cons_append, List.nil_append,
      Source.typeKey]
    exact parse_sqlTextSrc_wire sql
  | .pick base columns, h => by
    simp only [goodSrc, Bool.and_eq_true] at h
    obtain ⟨hb, hc⟩ := h
    obtain ⟨bw, hbw, hbp⟩ := bind_ok_elim (srcRT base hb)
    obtain ⟨cw, hcw, hcp⟩ := bind_ok_elim (ceListRT columns hc)
    simp only [srcToWire, hbw, hcw, bind_ok_p, List.cons_append,
      List.nil_append, Source.typeKey, versionField]
    simp only [versionField, HASHQUERY_WIRE_VERSION]
    rw [parse_pick_wire]
    simp only [hbp, hcp, bind_ok_p]
  | .filterSrc base condition, h => by
    simp only [goodSrc, Bool.and_eq_true] at h
    obtain ⟨hb, hc⟩ := h
    obtain ⟨bw, hbw, hbp⟩ := bind_ok_elim (srcRT base hb)
    obtain ⟨cw, hcw, hcp⟩ := bind_ok_elim (ceRT condition hc).1
    simp only [srcToWire, hbw, hcw, bind_ok_p, List.cons_append,
      List.nil_append, Source.typeKey, versionField]
    simp only [versionField, HASHQUERY_WIRE_VERSION]
    rw [parse_filter_wire]
    simp only [hbp, hcp, bind_ok_p]
  | .sortSrc base sortBy dir nulls, h => by
    simp only [goodSrc, Bool.and_eq_true] at h
    obtain ⟨hb, hs⟩ := h
    obtain ⟨bw, hbw, hbp⟩ := bind_ok_elim (srcRT base hb)
    obtain ⟨sw, hsw, hsp⟩ := bind_ok_elim (ceRT sortBy hs).1
    simp only [srcToWire, hbw, hsw, bind_ok_p, List.cons_append,
      List.nil_append, Source.typeKey, versionField]
    simp only [versionField, HASHQUERY_WIRE_VERSION]
    rw [parse_sort_wire]
    simp only [hbp, hsp, bind_ok_p]
  | .limitSrc base lim offset, h => by
    simp only [goodSrc] at h
    obtain ⟨bw, hbw, hbp⟩ := bind_ok_elim (srcRT base h)
    simp only [srcToWire, hbw, bind_ok_p, List.cons_append, List.nil_append,
      Source.typeKey]
    simp only [versionField, HASHQUERY_WIRE_VERSION]
    rw [parse_limit_wire]
    simp only [hbp, bind_ok_p]
  | .aggregate base groups measures, h => by
    simp only [goodSrc, Bool.and_eq_true] at h
    obtain ⟨⟨hb, hg⟩, hm⟩ := h
    obtain ⟨bw, hbw, hbp⟩ := bind_ok_elim (srcRT base hb)
    obtain ⟨gw, hgw, hgp⟩ := bind_ok_elim (ceListRT groups hg)
    obtain ⟨mw, hmw, hmp⟩ := bind_ok_elim (ceListRT measures hm)
    simp only [srcToWire, hbw, hgw, hmw, bind_ok_p, List.cons_append,
      List.nil_append, Source.typeKey, versionField]
    simp only [versionField, HASHQUERY_WIRE_VERSION]
    rw [parse_aggregate_wire]
    simp only [hbp, hgp, hmp, bind_ok_p]
  | .joinOne base relation joinCondition dropUnmatched, h => by
    simp only [goodSrc, Bool.and_eq_true] at h
    obtain ⟨⟨hb, hrel⟩, hc⟩ := h
    obtain ⟨bw, hbw, hbp⟩ := bind_ok_elim (srcRT base hb)
    obtain ⟨relw, hrelw, hrelp⟩ := bind_ok_elim (nsRT relation hrel)
    obtain ⟨cw, hcw, hcp⟩ := bind_ok_elim (ceRT joinCondition hc).1
    simp only [srcToWire, hbw, hrelw, hcw, bind_ok_p, List.cons_append,
      List.nil_append, Source.typeKey, versionField]
    simp only [versionField, HASHQUERY_WIRE_VERSION]
    rw [parse_joinOne_wire]
    simp only [hbp, hrelp, hcp, bind_ok_p]
  | .union base unionSource, h => by
    simp only [goodSrc, Bool.and_eq_true] at h
    obtain ⟨hb, ho⟩ := h
    obtain ⟨bw, hbw, hbp⟩ := bind_ok_elim (srcRT base hb)
    obtain ⟨ow, how, hop⟩ := bind_ok_elim (srcRT unionSource ho)
    simp only [srcToWire, hbw, how, bind_ok_p, List.cons_append,
      List.nil_append, Source.typeKey, versionField]
    simp only [versionField, HASHQUERY_WIRE_VERSION]
    rw [parse_union_wire]
    simp only [hbp, hop, bind_ok_p]
  | .matchSteps base activitySchema steps partitionStartEvents timeLimit, h => by
    simp only [goodSrc, Bool.and_eq_true] at h
    obtain ⟨⟨⟨⟨⟨hb, hsch⟩, hsteps⟩, hparts⟩, hids⟩, htl⟩ := h
    obtain ⟨bw, hbw, hbp⟩ := bind_ok_elim (srcRT base hb)
    obtain ⟨hschrt, schfields, hschf⟩ := schRT activitySchema hsch
    rw [hschf] at hschrt
    simp only [bind_ok_p] at hschrt
    obtain ⟨sw, hsw, hswp⟩ := bind_ok_elim (stepsRT steps hsteps)
    obtain ⟨pw, hpw, hpp⟩ := bind_ok_elim (ceListRT partitionStartEvents hparts)
    obtain ⟨ids, hids', hdup⟩ : ∃ ids, ceListIdentifiers steps = .ok ids ∧
        hasDuplicate ids = false := by
      revert hids
      cases hid : ceListIdentifiers steps with
      | ok ids =>
        intro hids
        simp only [Bool.not_eq_true'] at hids
        exact ⟨ids, rfl, hids⟩
      | error err => intro hids; exact absurd hids (by simp)
    cases timeLimit with
    | none =>
      simp only [srcToWire, hbw, hschf, hsw, hpw, bind_ok_p, List.cons_append,
        List.nil_append, Source.typeKey, versionField]
      simp only [versionField, HASHQUERY_WIRE_VERSION]
      rw [parse_matchSteps_wire]
      simp only [hschrt, hswp, hpp, hbp, bind_ok_p,
        normalizeSteps_exprs steps activitySchema ids hids' hdup]
      rfl
    | some t =>
      simp only [] at htl
      simp only [srcToWire, hbw, hschf, hsw, hpw, bind_ok_p, List.cons_append,
        List.nil_append, Source.typeKey, versionField]
      simp only [versionField, HASHQUERY_WIRE_VERSION]
      rw [parse_matchSteps_wire]
      simp only [hschrt, hswp, hpp, hbp, bind_ok_p,
        normalizeSteps_exprs steps activitySchema ids hids' hdup,
        primRT (.timedelta t) htl]

theorem nsRT : ∀ (ns : ModelNamespace), goodNs ns = true →
    (nsToWire ns >>= nsFromWire) = .ok ns
  | .mk identifier nestedModel throughForeignKeyAttr, h => by
    unfold goodNs at h
    simp only [Bool.and_eq_true] at h
    obtain ⟨hm, hfk⟩ := h
    obtain ⟨mw, hmw, hmp⟩ := bind_ok_elim (modelRT nestedModel hm)
    cases throughForeignKeyAttr with
    | none =>
      simp only [nsToWire, hmw, bind_ok_p, bind_pure_p, versionField]
      simp only [versionField, HASHQUERY_WIRE_VERSION]
      rw [parse_ns_wire]
      simp [hmp, bind_ok_p, wireTruthy]
    | some fk =>
      obtain ⟨hfkrt, fkfields, hfkf⟩ := ceRT fk hfk
      rw [hfkf] at hfkrt
      simp only [bind_ok_p] at hfkrt
      simp only [nsToWire, hmw, hfkf, bind_ok_p, bind_pure_p, versionField]
      simp only [versionField, HASHQUERY_WIRE_VERSION]
      rw [parse_ns_wire]
      simp [hmp, bind_ok_p, wireTruthy, hfkrt]

theorem nsListRT : ∀ (xs : List ModelNamespace), goodNsList xs = true →
    (nsListToWire xs >>= nsListFromWire) = .ok xs
  | [], _ => rfl
  | ns :: rest, h => by
    unfold goodNsList at h
    simp only [Bool.and_eq_true] at h
    obtain ⟨hns, hrest⟩ := h
    obtain ⟨nw, hnw, hnp⟩ := bind_ok_elim (nsRT ns hns)
    obtain ⟨ws, hws, hwsp⟩ := bind_ok_elim (nsListRT rest hrest)
    simp only [nsListToWire, hnw, hws, bind_ok_p, nsListFromWire, hnp, hwsp]

theorem schRT : ∀ (a : ModelActivitySchema), goodSch a = true →
    (schToWire a >>= schFromWire) = .ok a ∧
    ∃ fields, schToWire a =
      .ok (.obj (("type", Wire.str "modelActivitySchema") :: fields))
  | .mk group timestamp eventKey, h => by
    unfold goodSch at h
    simp only [Bool.and_eq_true] at h
    obtain ⟨⟨hg, ht⟩, he⟩ := h
    obtain ⟨gw, hgw, hgp⟩ := bind_ok_elim (ceRT group hg).1
    obtain ⟨tw, htw, htp⟩ := bind_ok_elim (ceRT timestamp ht).1
    obtain ⟨ew, hew, hep⟩ := bind_ok_elim (ceRT eventKey he).1
    constructor
    · simp only [schToWire, hgw, htw, hew, bind_ok_p, versionField]
      simp only [versionField, HASHQUERY_WIRE_VERSION]
      rw [parse_sch_wire]
      simp only [hgp, htp, hep, bind_ok_p]
    · simp only [schToWire, hgw, htw, hew, bind_ok_p]
      exact ⟨_, rfl⟩

theorem modelRT : ∀ (m : Model), goodModel m = true →
    (modelToWire m >>= modelFromWire) = .ok m
  | .mk connection source attributes measures namespaces primaryKey
      activitySchema customMeta linkedResource, h => by
    unfold goodModel at h
    simp only [Bool.and_eq_true] at h
    obtain ⟨⟨⟨⟨⟨⟨hconn, hsrc⟩, hattrs⟩, hmeas⟩, hnss⟩, hpk⟩, hsch⟩ := h
    cases connection with
    | none => exact absurd hconn (by simp)
    | some c =>
    cases source with
    | none => exact absurd hsrc (by simp)
    | some s =>
    obtain ⟨sw, hsw, hsp⟩ := bind_ok_elim (srcRT s hsrc)
    obtain ⟨aw, haw, hap⟩ := bind_ok_elim (ceListRT attributes hattrs)
    obtain ⟨mw, hmw, hmp⟩ := bind_ok_elim (ceListRT measures hmeas)
    obtain ⟨nw, hnw, hnp⟩ := bind_ok_elim (nsListRT namespaces hnss)
    obtain ⟨pw, hpw, hpp⟩ := bind_ok_elim (ceRT primaryKey hpk).1
    cases activitySchema with
    | none =>
      cases linkedResource with
      | none =>
        unfold modelToWire
        simp only [hsw, haw, hmw, hnw, hpw, bind_ok_p, bind_pure_p, versionField]
        simp only [versionField, HASHQUERY_WIRE_VERSION, customMetaWire]
        rw [parse_model_wire]
        simp [connRT c hconn, hsp, hap, hmp, hnp, hpp, metaRT,
          bind_ok_p, wireTruthy]
      | some r =>
        unfold modelToWire
        simp only [hsw, haw, hmw, hnw, hpw, bind_ok_p, bind_pure_p, versionField]
        simp only [versionField, HASHQUERY_WIRE_VERSION, customMetaWire]
        rw [parse_model_wire]
        simp [connRT c hconn, hsp, hap, hmp, hnp, hpp, metaRT,
          bind_ok_p, wireTruthy, lr_truthy, lrRT]
        rfl
    | some a =>
      obtain ⟨hart, afields, haf⟩ := schRT a hsch
      rw [haf] at hart
      simp only [bind_ok_p] at hart
      cases linkedResource with
      | none =>
        unfold modelToWire
        simp only [hsw, haw, hmw, hnw, hpw, haf, bind_ok_p, bind_pure_p, versionField]
        simp only [versionField, HASHQUERY_WIRE_VERSION, customMetaWire]
        rw [parse_model_wire]
        simp [connRT c hconn, hsp, hap, hmp, hnp, hpp, metaRT,
          bind_ok_p, wireTruthy, hart]
      | some r =>
        unfold modelToWire
        simp only [hsw, haw, hmw, hnw, hpw, haf, bind_ok_p, bind_pure_p, versionField]
        simp only [versionField, HASHQUERY_WIRE_VERSION, customMetaWire]
        rw [parse_model_wire]
        simp [connRT c hconn, hsp, hap, hmp, hnp, hpp, metaRT,
          bind_ok_p, wireTruthy, hart, lr_truthy, lrRT]
        rfl

end



/-! ## Claim C2: wire round-trip -/

/-- C2 (amended): the wire round-trip `fromWire (toWire n) = ok n` holds for
every column expression, source, and model on the `good*` sub-domain:
`sqlFunction` nodes must have `inheritIdentifier = false` (the parser hardcodes
`false`), connections must be secret-free and not DuckDB (whose parser returns
`None`), top-level `timedelta` values — including a `matchSteps` time limit —
must have whole seconds (the wire stores `int(total_seconds())`), models must
have a connection and a source, every node's optional identifier must be
computable without raising, and a `matchSteps` source's steps must each have a
determinable identifier with no two steps sharing one (deserialization re-runs
`normalize_steps`, which raises `ValueError` on a missing or duplicate step
identifier). -/
theorem C2_wire_roundtrip_amended :
    (∀ e : ColumnExpression, goodCE e = true →
        (ceToWire e >>= ceFromWire) = Except.ok e) ∧
    (∀ s : Source, goodSrc s = true →
        (srcToWire s >>= srcFromWire) = Except.ok s) ∧
    (∀ m : Model, goodModel m = true →
        (modelToWire m >>= modelFromWire) = Except.ok m) :=
  ⟨fun e h => (ceRT e h).1, fun s h => srcRT s h, fun m h => modelRT m h⟩

/-- C2 counterexample to the claim as stated: a `sqlFunction` node with
`inheritIdentifier = true` serializes fine but deserializes with
`inheritIdentifier = false`, because `SqlFunctionColumnExpression.from_wire_format`
hardcodes `inherit_identifier=False`; the round-trip is not the identity on
this node. -/
theorem C2_counterexample :
    (ceToWire (ColumnExpression.sqlFunction none "max"
          [FnArg.expr (ColumnExpression.columnName none "x" none)] true)
        >>= ceFromWire)
      = Except.ok (ColumnExpression.sqlFunction none "max"
          [FnArg.expr (ColumnExpression.columnName none "x" none)] false) ∧
    ColumnExpression.sqlFunction none "max"
        [FnArg.expr (ColumnExpression.columnName none "x" none)] false
      ≠ ColumnExpression.sqlFunction none "max"
        [FnArg.expr (ColumnExpression.columnName none "x" none)] true :=
  ⟨rfl, by simp⟩

/-- C2 witness: the amended round-trip evaluated on a concrete column
expression, source, and model. -/
theorem C2_wire_roundtrip_amended_witness :
    (ceToWire (ColumnExpression.columnName none "status" none) >>= ceFromWire)
        = Except.ok (ColumnExpression.columnName none "status" none) ∧
    (srcToWire (Source.tableName "orders" none) >>= srcFromWire)
        = Except.ok (Source.tableName "orders" none) ∧
    (modelToWire (Model.mk (some (Connection.bigquery none none none))
          (some (Source.tableName "orders" none)) [] [] []
          (ColumnExpression.columnName none "id" none) none [] none)
        >>= modelFromWire)
      = Except.ok (Model.mk (some (Connection.bigquery none none none))
          (some (Source.tableName "orders" none)) [] [] []
          (ColumnExpression.columnName none "id" none) none [] none) :=
  ⟨C2_wire_roundtrip_amended.1 _ (by decide),
   C2_wire_roundtrip_amended.2.1 _ (by decide),
   C2_wire_roundtrip_amended.2.2 _ (by decide)⟩

/-! ## Claim C1: builder purity -/

/-- Frame property of `builder_method`, for any mutator body: the cell of
`self` is untouched (hence its wire form is unchanged), and on success the
returned handle is a fresh address distinct from `self`. -/
theorem builder_frame (body : Model → Except PyErr Model) (h : List Model)
    (a : Nat) :
    (builderRunHeap body h a).get? a = h.get? a ∧
    ((builderRunHeap body h a).get? a).map modelToWire
      = (h.get? a).map modelToWire ∧
    (a < h.length → exceptOk (builderMethod body h a) = true →
      builderRunAddr body h a ≠ a) := by
  rcases hg : h.get? a with _ | m
  · simp only [builderRunHeap, builderRunAddr, builderMethod, hg]
    exact ⟨trivial, trivial, fun _ hok => Bool.noConfusion hok⟩
  · have hlt : a < h.length := by
      rcases Nat.lt_or_ge a h.length with hl | hge
      · exact hl
      · rw [List.get?_eq_none.mpr hge] at hg
        cases hg
    rcases hb : body m with e | m2
    · simp only [builderRunHeap, builderRunAddr, builderMethod, hg, hb]
      exact ⟨trivial, trivial, fun _ hok => Bool.noConfusion hok⟩
    · simp only [builderRunHeap, builderRunAddr, builderMethod, hg, hb]
      refine ⟨(List.get?_append hlt).trans hg, ?_, fun _ _ => Nat.ne_of_gt hlt⟩
      rw [List.get?_append hlt, hg]

/-- C1: builder purity.  Every builder method of `Model` — with_connection,
with_source, with_attributes, with_measures, with_join_one, aggregate, pick,
filter, sort, limit, union_all, match_steps, with_custom_meta — deep-copies
`self`, mutates only the copy, and returns the copy: the original model's
heap cell (hence its wire form) is unchanged, and on success the returned
handle is a fresh address distinct from the original. -/
theorem C1_builder_purity :
    (∀ (conn : Connection) (h : List Model) (a : Nat),
      (builderRunHeap (withConnectionB conn) h a).get? a = h.get? a ∧
      ((builderRunHeap (withConnectionB conn) h a).get? a).map modelToWire
        = (h.get? a).map modelToWire ∧
      (a < h.length → exceptOk (builderMethod (withConnectionB conn) h a) = true →
        builderRunAddr (withConnectionB conn) h a ≠ a)) ∧
    (∀ (table : String) (schema sqlQuery : Option String) (h : List Model) (a : Nat),
      (builderRunHeap (withSourceB table schema sqlQuery) h a).get? a = h.get? a ∧
      ((builderRunHeap (withSourceB table schema sqlQuery) h a).get? a).map modelToWire
        = (h.get? a).map modelToWire ∧
      (a < h.length → exceptOk (builderMethod (withSourceB table schema sqlQuery) h a) = true →
        builderRunAddr (withSourceB table schema sqlQuery) h a ≠ a)) ∧
    (∀ (args : List AttrArg) (kwargs : List (String × AttrArg)) (h : List Model) (a : Nat),
      (builderRunHeap (withAttributesB args kwargs) h a).get? a = h.get? a ∧
      ((builderRunHeap (withAttributesB args kwargs) h a).get? a).map modelToWire
        = (h.get? a).map modelToWire ∧
      (a < h.length → exceptOk (builderMethod (withAttributesB args kwargs) h a) = true →
        builderRunAddr (withAttributesB args kwargs) h a ≠ a)) ∧
    (∀ (args : List ColumnExpression) (kwargs : List (String × ColumnExpression)) (h : List Model) (a : Nat),
      (builderRunHeap (withMeasuresB args kwargs) h a).get? a = h.get? a ∧
      ((builderRunHeap (withMeasuresB args kwargs) h a).get? a).map modelToWire
        = (h.get? a).map modelToWire ∧
      (a < h.length → exceptOk (builderMethod (withMeasuresB args kwargs) h a) = true →
        builderRunAddr (withMeasuresB args kwargs) h a ≠ a)) ∧
    (∀ (joined : Model) (fk cond : Option ColumnExpression) (named : Option String) (drop : Bool) (h : List Model) (a : Nat),
      (builderRunHeap (withJoinOneB joined fk cond named drop) h a).get? a = h.get? a ∧
      ((builderRunHeap (withJoinOneB joined fk cond named drop) h a).get? a).map modelToWire
        = (h.get? a).map modelToWire ∧
      (a < h.length → exceptOk (builderMethod (withJoinOneB joined fk cond named drop) h a) = true →
        builderRunAddr (withJoinOneB joined fk cond named drop) h a ≠ a)) ∧
    (∀ (measures groups : List ColumnExpression) (h : List Model) (a : Nat),
      (builderRunHeap (aggregateB measures groups) h a).get? a = h.get? a ∧
      ((builderRunHeap (aggregateB measures groups) h a).get? a).map modelToWire
        = (h.get? a).map modelToWire ∧
      (a < h.length → exceptOk (builderMethod (aggregateB measures groups) h a) = true →
        builderRunAddr (aggregateB measures groups) h a ≠ a)) ∧
    (∀ (columns : List ColumnExpression) (h : List Model) (a : Nat),
      (builderRunHeap (pickB columns) h a).get? a = h.get? a ∧
      ((builderRunHeap (pickB columns) h a).get? a).map modelToWire
        = (h.get? a).map modelToWire ∧
      (a < h.length → exceptOk (builderMethod (pickB columns) h a) = true →
        builderRunAddr (pickB columns) h a ≠ a)) ∧
    (∀ (condition : ColumnExpression) (h : List Model) (a : Nat),
      (builderRunHeap (filterB condition) h a).get? a = h.get? a ∧
      ((builderRunHeap (filterB condition) h a).get? a).map modelToWire
        = (h.get? a).map modelToWire ∧
      (a < h.length → exceptOk (builderMethod (filterB condition) h a) = true →
        builderRunAddr (filterB condition) h a ≠ a)) ∧
    (∀ (sortBy : ColumnExpression) (dir nulls : String) (h : List Model) (a : Nat),
      (builderRunHeap (sortB sortBy dir nulls) h a).get? a = h.get? a ∧
      ((builderRunHeap (sortB sortBy dir nulls) h a).get? a).map modelToWire
        = (h.get? a).map modelToWire ∧
      (a < h.length → exceptOk (builderMethod (sortB sortBy dir nulls) h a) = true →
        builderRunAddr (sortB sortBy dir nulls) h a ≠ a)) ∧
    (∀ (count offset : Int) (h : List Model) (a : Nat),
      (builderRunHeap (limitB count offset) h a).get? a = h.get? a ∧
      ((builderRunHeap (limitB count offset) h a).get? a).map modelToWire
        = (h.get? a).map modelToWire ∧
      (a < h.length → exceptOk (builderMethod (limitB count offset) h a) = true →
        builderRunAddr (limitB count offset) h a ≠ a)) ∧
    (∀ (other : Model) (h : List Model) (a : Nat),
      (builderRunHeap (unionAllB other) h a).get? a = h.get? a ∧
      ((builderRunHeap (unionAllB other) h a).get? a).map modelToWire
        = (h.get? a).map modelToWire ∧
      (a < h.length → exceptOk (builderMethod (unionAllB other) h a) = true →
        builderRunAddr (unionAllB other) h a ≠ a)) ∧
    (∀ (steps : List StepInput) (group timestamp eventKey : Option ColumnExpression) (pse : Option (List ColumnExpression)) (tl : Option PyTimedelta) (h : List Model) (a : Nat),
      (builderRunHeap (matchStepsB steps group timestamp eventKey pse tl) h a).get? a = h.get? a ∧
      ((builderRunHeap (matchStepsB steps group timestamp eventKey pse tl) h a).get? a).map modelToWire
        = (h.get? a).map modelToWire ∧
      (a < h.length → exceptOk (builderMethod (matchStepsB steps group timestamp eventKey pse tl) h a) = true →
        builderRunAddr (matchStepsB steps group timestamp eventKey pse tl) h a ≠ a)) ∧
    (∀ (name : String) (value : PyLit) (h : List Model) (a : Nat),
      (builderRunHeap (withCustomMetaB name value) h a).get? a = h.get? a ∧
      ((builderRunHeap (withCustomMetaB name value) h a).get? a).map modelToWire
        = (h.get? a).map modelToWire ∧
      (a < h.length → exceptOk (builderMethod (withCustomMetaB name value) h a) = true →
        builderRunAddr (withCustomMetaB name value) h a ≠ a)) :=
  ⟨fun conn h a => builder_frame _ h a,
   fun t s2 q h a => builder_frame _ h a,
   fun x y h a => builder_frame _ h a,
   fun x y h a => builder_frame _ h a,
   fun j f c nm d h a => builder_frame _ h a,
   fun x y h a => builder_frame _ h a,
   fun x h a => builder_frame _ h a,
   fun x h a => builder_frame _ h a,
   fun x y z h a => builder_frame _ h a,
   fun x y h a => builder_frame _ h a,
   fun x h a => builder_frame _ h a,
   fun s2 g t e p u h a => builder_frame _ h a,
   fun x y h a => builder_frame _ h a⟩

/-- C1 witness: each of the thirteen builder bodies evaluated on a concrete
one-cell heap leaves the original cell unchanged and returns a fresh
handle. -/
theorem C1_builder_purity_witness :
    ((builderRunHeap (withConnectionB (.bigquery none none none)) [sampleModel] 0).get? 0
        = [sampleModel].get? 0 ∧
      builderRunAddr (withConnectionB (.bigquery none none none)) [sampleModel] 0 ≠ 0) ∧
    ((builderRunHeap (withSourceB "t2" none none) [sampleModel] 0).get? 0
        = [sampleModel].get? 0 ∧
      builderRunAddr (withSourceB "t2" none none) [sampleModel] 0 ≠ 0) ∧
    ((builderRunHeap (withAttributesB [AttrArg.name "color"] []) [sampleModel] 0).get? 0
        = [sampleModel].get? 0 ∧
      builderRunAddr (withAttributesB [AttrArg.name "color"] []) [sampleModel] 0 ≠ 0) ∧
    ((builderRunHeap (withMeasuresB [] [("total", funcCount)]) [sampleModel] 0).get? 0
        = [sampleModel].get? 0 ∧
      builderRunAddr (withMeasuresB [] [("total", funcCount)]) [sampleModel] 0 ≠ 0) ∧
    ((builderRunHeap (withJoinOneB sampleJoined (some (.columnName none "customer_id" none)) none none false) [sampleModel] 0).get? 0
        = [sampleModel].get? 0 ∧
      builderRunAddr (withJoinOneB sampleJoined (some (.columnName none "customer_id" none)) none none false) [sampleModel] 0 ≠ 0) ∧
    ((builderRunHeap (aggregateB [] []) [sampleModel] 0).get? 0
        = [sampleModel].get? 0 ∧
      builderRunAddr (aggregateB [] []) [sampleModel] 0 ≠ 0) ∧
    ((builderRunHeap (pickB [ColumnExpression.columnName none "id" none]) [sampleModel] 0).get? 0
        = [sampleModel].get? 0 ∧
      builderRunAddr (pickB [ColumnExpression.columnName none "id" none]) [sampleModel] 0 ≠ 0) ∧
    ((builderRunHeap (filterB (ColumnExpression.binaryOp none (.columnName none "id" none) (.pyValue none (.int 1)) "=" [])) [sampleModel] 0).get? 0
        = [sampleModel].get? 0 ∧
      builderRunAddr (filterB (ColumnExpression.binaryOp none (.columnName none "id" none) (.pyValue none (.int 1)) "=" [])) [sampleModel] 0 ≠ 0) ∧
    ((builderRunHeap (sortB (.columnName none "id" none) "asc" "auto") [sampleModel] 0).get? 0
        = [sampleModel].get? 0 ∧
      builderRunAddr (sortB (.columnName none "id" none) "asc" "auto") [sampleModel] 0 ≠ 0) ∧
    ((builderRunHeap (limitB 10 0) [sampleModel] 0).get? 0
        = [sampleModel].get? 0 ∧
      builderRunAddr (limitB 10 0) [sampleModel] 0 ≠ 0) ∧
    ((builderRunHeap (unionAllB sampleJoined) [sampleModel] 0).get? 0
        = [sampleModel].get? 0 ∧
      builderRunAddr (unionAllB sampleJoined) [sampleModel] 0 ≠ 0) ∧
    ((builderRunHeap (matchStepsB [StepInput.strStep "signup"] (some (.columnName none "user_id" none)) (some (.columnName none "ts" none)) (some (.columnName none "evt" none)) none none) [sampleModel] 0).get? 0
        = [sampleModel].get? 0 ∧
      builderRunAddr (matchStepsB [StepInput.strStep "signup"] (some (.columnName none "user_id" none)) (some (.columnName none "ts" none)) (some (.columnName none "evt" none)) none none) [sampleModel] 0 ≠ 0) ∧
    ((builderRunHeap (withCustomMetaB "k" (PyLit.str "v")) [sampleModel] 0).get? 0
        = [sampleModel].get? 0 ∧
      builderRunAddr (withCustomMetaB "k" (PyLit.str "v")) [sampleModel] 0 ≠ 0) :=
  ⟨⟨(C1_builder_purity.1 (.bigquery none none none) [sampleModel] 0).1,
    (C1_builder_purity.1 (.bigquery none none none) [sampleModel] 0).2.2 (by decide) (by decide)⟩,
   ⟨(C1_builder_purity.2.1 "t2" none none [sampleModel] 0).1,
    (C1_builder_purity.2.1 "t2" none none [sampleModel] 0).2.2 (by decide) (by decide)⟩,
   ⟨(C1_builder_purity.2.2.1 [AttrArg.name "color"] [] [sampleModel] 0).1,
    (C1_builder_purity.2.2.1 [AttrArg.name "color"] [] [sampleModel] 0).2.2 (by decide) (by decide)⟩,
   ⟨(C1_builder_purity.2.2.2.1 [] [("total", funcCount)] [sampleModel] 0).1,
    (C1_builder_purity.2.2.2.1 [] [("total", funcCount)] [sampleModel] 0).2.2 (by decide) (by decide)⟩,
   ⟨(C1_builder_purity.2.2.2.2.1 sampleJoined (some (.columnName none "customer_id" none)) none none false [sampleModel] 0).1,
    (C1_builder_purity.2.2.2.2.1 sampleJoined (some (.columnName none "customer_id" none)) none none false [sampleModel] 0).2.2 (by decide) (by decide)⟩,
   ⟨(C1_builder_purity.2.2.2.2.2.1 [] [] [sampleModel] 0).1,
    (C1_builder_purity.2.2.2.2.2.1 [] [] [sampleModel] 0).2.2 (by decide) (by decide)⟩,
   ⟨(C1_builder_purity.2.2.2.2.2.2.1 [ColumnExpression.columnName none "id" none] [sampleModel] 0).1,
    (C1_builder_purity.2.2.2.2.2.2.1 [ColumnExpression.columnName none "id" none] [sampleModel] 0).2.2 (by decide) (by decide)⟩,
   ⟨(C1_builder_purity.2.2.2.2.2.2.2.1 (ColumnExpression.binaryOp none (.columnName none "id" none) (.pyValue none (.int 1)) "=" []) [sampleModel] 0).1,
    (C1_builder_purity.2.2.2.2.2.2.2.1 (ColumnExpression.binaryOp none (.columnName none "id" none) (.pyValue none (.int 1)) "=" []) [sampleModel] 0).2.2 (by decide) (by decide)⟩,
   ⟨(C1_builder_purity.2.2.2.2.2.2.2.2.1 (.columnName none "id" none) "asc" "auto" [sampleModel] 0).1,
    (C1_builder_purity.2.2.2.2.2.2.2.2.1 (.columnName none "id" none) "asc" "auto" [sampleModel] 0).2.2 (by decide) (by decide)⟩,
   ⟨(C1_builder_purity.2.2.2.2.2.2.2.2.2.1 10 0 [sampleModel] 0).1,
    (C1_builder_purity.2.2.2.2.2.2.2.2.2.1 10 0 [sampleModel] 0).2.2 (by decide) (by decide)⟩,
   ⟨(C1_builder_purity.2.2.2.2.2.2.2.2.2.2.1 sampleJoined [sampleModel] 0).1,
    (C1_builder_purity.2.2.2.2.2.2.2.2.2.2.1 sampleJoined [sampleModel] 0).2.2 (by decide) (by decide)⟩,
   ⟨(C1_builder_purity.2.2.2.2.2.2.2.2.2.2.2.1 [StepInput.strStep "signup"] (some (.columnName none "user_id" none)) (some (.columnName none "ts" none)) (some (.columnName none "evt" none)) none none [sampleModel] 0).1,
    (C1_builder_purity.2.2.2.2.2.2.2.2.2.2.2.1 [StepInput.strStep "signup"] (some (.columnName none "user_id" none)) (some (.columnName none "ts" none)) (some (.columnName none "evt" none)) none none [sampleModel] 0).2.2 (by decide) (by decide)⟩,
   ⟨(C1_builder_purity.2.2.2.2.2.2.2.2.2.2.2.2 "k" (PyLit.str "v") [sampleModel] 0).1,
    (C1_builder_purity.2.2.2.2.2.2.2.2.2.2.2.2 "k" (PyLit.str "v") [sampleModel] 0).2.2 (by decide) (by decide)⟩⟩

/-! ## Claim C9: totality of SqlText default identifiers -/

/-- C9: refuted — `SqlTextColumnExpression.default_identifier` returns
`tokens[1]` when the SQL splits on "." into exactly one token that is a
valid identifier, so `sql("price").default_identifier()` raises
`IndexError` (the list has one element) instead of returning normally. -/
theorem C9_sqlText_default_identifier_raises :
    sqlTextDefaultIdent "price" = Except.error PyErr.indexError ∧
    ceDefaultIdent (ColumnExpression.sqlText none "price" none [])
      = Except.error PyErr.indexError :=
  ⟨rfl, rfl⟩

/-! ## Reflexivity of wire equality and cache lemmas -/

mutual

theorem wireBEq_refl : ∀ w : Wire, wireBEq w w = true
  | .null => rfl
  | .bool b => by simp [wireBEq]
  | .int n => by simp [wireBEq]
  | .float s => by simp [wireBEq]
  | .str s => by simp [wireBEq]
  | .arr xs => by simp [wireBEq, wireListBEq_refl xs]
  | .obj xs => by simp [wireBEq, wireFieldsBEq_refl xs]
  | .rawDatetime d => by simp [wireBEq]
  | .rawDate d => by simp [wireBEq]
  | .rawTimedelta t => by simp [wireBEq]
  | .rawTimeinterval ti => by simp [wireBEq]
  | .taggedDatetime d => by simp [wireBEq]
  | .taggedDate d => by simp [wireBEq]
  | .taggedTimedelta s => by simp [wireBEq]
  | .taggedTimeinterval u n => by simp [wireBEq]

theorem wireListBEq_refl : ∀ xs : List Wire, wireListBEq xs xs = true
  | [] => rfl
  | x :: xs => by simp [wireListBEq, wireBEq_refl x, wireListBEq_refl xs]

theorem wireFieldsBEq_refl : ∀ xs : List (String × Wire),
    wireFieldsBEq xs xs = true
  | [] => rfl
  | (k, x) :: xs => by simp [wireFieldsBEq, wireBEq_refl x, wireFieldsBEq_refl xs]

end

theorem cacheLookup_insert : ∀ (c : List (Wire × Nat)) (w : Wire) (v : Nat),
    cacheLookup (cacheInsert c w v) w = some v
  | [], w, v => by simp [cacheInsert, cacheLookup, wireBEq_refl]
  | (k, v0) :: rest, w, v => by
    by_cases h : wireBEq k w = true
    · simp [cacheInsert, cacheLookup, h, wireBEq_refl]
    · simp [cacheInsert, cacheLookup, h, cacheLookup_insert rest w v]

/-! ## Claim C3: CTE reuse -/

/-- C3: CTE reuse within one compilation context.  (1) Chaining a layer
whose `source` is set allocates exactly one new CTE and registers the alias
checkpoint for that source's stable key; (2) every later `compile_source`
call that finds the checkpoint returns a layer selecting from that one
cached reference (with `source` unset) and leaves the context untouched, so
no further CTE is emitted for that source; (3) chaining a checkpoint-hit
layer registers nothing (its `source` is unset), so the cache keeps mapping
the source to its single CTE. -/
theorem C3_cte_reuse :
    (∀ (l : SelLayer) (ctx : QueryCtxM) (s : Source),
      l.source = some s → exceptOk (srcToWire s) = true →
      cacheLookup (chainedRun l ctx).2.cache (wireKeyOf s) = some ctx.nextCte ∧
      (chainedRun l ctx).2.ctes = ctx.ctes ++ [ctx.nextCte] ∧
      (chainedRun l ctx).1 = { fromRef := some ctx.nextCte, source := none }) ∧
    (∀ (cf : Source → QueryCtxM → SelLayer × QueryCtxM) (s : Source)
      (ctx : QueryCtxM) (ref : Nat),
      exceptOk (srcToWire s) = true →
      cacheLookup ctx.cache (wireKeyOf s) = some ref →
      compileSourceC cf s ctx
        = .ok ({ fromRef := some ref, source := none }, ctx)) ∧
    (∀ (l : SelLayer) (ctx : QueryCtxM),
      l.source = none → (chainedRun l ctx).2.cache = ctx.cache) := by
  refine ⟨?_, ?_, ?_⟩
  · intro l ctx s hl hw
    cases hsw : srcToWire s with
    | error e => rw [hsw] at hw; exact Bool.noConfusion hw
    | ok w =>
      have hkey : wireKeyOf s = w := by simp [wireKeyOf, hsw]
      have hrun : chainedRun l ctx
          = ({ fromRef := some ctx.nextCte, source := none },
             { cache := cacheInsert ctx.cache w ctx.nextCte,
               nextCte := ctx.nextCte + 1,
               ctes := ctx.ctes ++ [ctx.nextCte] }) := by
        simp [chainedRun, chainedC, hl, hsw, bind_ok_p]
      rw [hrun, hkey]
      exact ⟨cacheLookup_insert _ _ _, rfl, rfl⟩
  · intro cf s ctx ref hw hlk
    cases hsw : srcToWire s with
    | error e => rw [hsw] at hw; exact Bool.noConfusion hw
    | ok w =>
      have hkey : wireKeyOf s = w := by simp [wireKeyOf, hsw]
      rw [hkey] at hlk
      simp [compileSourceC, hsw, bind_ok_p, hlk]
  · intro l ctx hl
    simp [chainedRun, chainedC, hl]

/-- C3 witness: chaining a table source registers its checkpoint at CTE 0;
a later compile of the same source returns the cached reference and leaves
the context unchanged; chaining the cache-hit layer registers nothing. -/
theorem C3_cte_reuse_witness :
    (cacheLookup (chainedRun ⟨none, some (Source.tableName "t" none)⟩
        ⟨[], 0, []⟩).2.cache (wireKeyOf (Source.tableName "t" none))
      = some 0 ∧
     (chainedRun ⟨none, some (Source.tableName "t" none)⟩ ⟨[], 0, []⟩).2.ctes
      = [] ++ [0] ∧
     (chainedRun ⟨none, some (Source.tableName "t" none)⟩ ⟨[], 0, []⟩).1
      = { fromRef := some 0, source := none }) ∧
    compileSourceC (fun _ c => (⟨none, none⟩, c)) (Source.tableName "t" none)
        (chainedRun ⟨none, some (Source.tableName "t" none)⟩ ⟨[], 0, []⟩).2
      = .ok ({ fromRef := some 0, source := none },
        (chainedRun ⟨none, some (Source.tableName "t" none)⟩ ⟨[], 0, []⟩).2) ∧
    (chainedRun ⟨some 0, none⟩
        (chainedRun ⟨none, some (Source.tableName "t" none)⟩ ⟨[], 0, []⟩).2).2.cache
      = (chainedRun ⟨none, some (Source.tableName "t" none)⟩ ⟨[], 0, []⟩).2.cache :=
  ⟨C3_cte_reuse.1 ⟨none, some (Source.tableName "t" none)⟩ ⟨[], 0, []⟩
      (Source.tableName "t" none) rfl (by decide),
   C3_cte_reuse.2.1 (fun _ c => (⟨none, none⟩, c)) (Source.tableName "t" none)
      _ 0 (by decide) (by decide),
   C3_cte_reuse.2.2 ⟨some 0, none⟩ _ rfl⟩

/-! ## Claim C4: join elision -/

theorem runHandler_usedNames (l : JLayer) (h : JHandler) :
    (runHandler l h).usedNames = l.usedNames := by
  cases h with
  | joinOne n c d =>
    simp only [runHandler]
    split <;> rfl

theorem runHandlers_usedNames : ∀ (hs : List JHandler) (l : JLayer),
    (runHandlers hs l).usedNames = l.usedNames
  | [], _ => rfl
  | h :: rest, l => by
    rw [runHandlers, runHandlers_usedNames rest, runHandler_usedNames]

theorem runHandlers_append : ∀ (hs h2 : List JHandler) (l : JLayer),
    runHandlers (hs ++ h2) l = runHandlers h2 (runHandlers hs l)
  | [], _, _ => rfl
  | h :: rest, h2, l => by
    rw [List.cons_append, runHandlers, runHandlers, runHandlers_append rest]

/-- C4: join elision.  Compiling a `JoinOne` source registers an
on-finalize handler; at finalization the JOIN clause — with its compiled
ON-condition and `isouter = not drop_unmatched` — is appended to the query
if and only if the join's namespace name is among the layer's used names;
an unreferenced join contributes no JOIN clause. -/
theorem C4_join_elision (name : String) (cond : ColumnExpression)
    (drop : Bool) (l : JLayer) :
    (l.usedNames.contains name = true →
      (finalizedJ (compileJoinOneJ name cond drop l)).joins
        = (finalizedJ l).joins ++ [(name, cond, !drop)]) ∧
    (l.usedNames.contains name = false →
      (finalizedJ (compileJoinOneJ name cond drop l)).joins
        = (finalizedJ l).joins) := by
  have hused : (runHandlers l.handlers
      { l with handlers := [] }).usedNames = l.usedNames :=
    runHandlers_usedNames _ _
  constructor <;> intro h
  · have hm : name ∈ l.usedNames := by simpa using h
    simp [finalizedJ, compileJoinOneJ, runHandlers_append, runHandlers,
      runHandler, hused, hm]
  · have hm : name ∉ l.usedNames := by simpa using h
    simp [finalizedJ, compileJoinOneJ, runHandlers_append, runHandlers,
      runHandler, hused, hm]

/-- C4 witness: a referenced join emits its (outer) JOIN clause, an
unreferenced one emits nothing. -/
theorem C4_join_elision_witness :
    (finalizedJ (compileJoinOneJ "rel" (.columnName none "id" none) false
        ⟨["rel"], [], []⟩)).joins
      = (finalizedJ ⟨["rel"], [], []⟩).joins
        ++ [("rel", ColumnExpression.columnName none "id" none, true)] ∧
    (finalizedJ (compileJoinOneJ "unused" (.columnName none "id" none) false
        ⟨["rel"], [], []⟩)).joins
      = (finalizedJ ⟨["rel"], [], []⟩).joins :=
  ⟨(C4_join_elision "rel" (.columnName none "id" none) false
      ⟨["rel"], [], []⟩).1 (by decide),
   (C4_join_elision "unused" (.columnName none "id" none) false
      ⟨["rel"], [], []⟩).2 (by decide)⟩

/-! ## Claim C5: null-safe IN over literal lists -/

/-- C5: for a literal list with at least one non-null value and at least
one `None`, `x.in_(list)` is `or_(x IN non-null-values, x == None)` — the
`(x IN (...)) OR (x IS NULL)` condition — and under SQL three-valued
semantics a row whose `x` is NULL satisfies it. -/
theorem C5_null_safe_in (x : ColumnExpression) (vs : List PyLit)
    (env : ColumnExpression → Option PyLit)
    (hnn : (vs.filter (fun v => !v.isNone)).isEmpty = false)
    (hn : vs.any (fun v => v.isNone) = true)
    (hx : sqlEvalVal env x = none) :
    ceIn x vs = funcOr
      (.binaryOp none x
        (.pyValue none (.list (vs.filter (fun v => !v.isNone)))) "IN" [])
      (.binaryOp none x (.pyValue none .none) "=" []) ∧
    sqlEvalB env (ceIn x vs) = some true := by
  have h1 : ceIn x vs = funcOr
      (.binaryOp none x
        (.pyValue none (.list (vs.filter (fun v => !v.isNone)))) "IN" [])
      (.binaryOp none x (.pyValue none .none) "=" []) := by
    simp [ceIn, hn, hnn]
  refine ⟨h1, ?_⟩
  rw [h1]
  simp [funcOr, sqlEvalB, hx, kleeneOr]

/-- C5 witness: `column("status").in_(["paid", None])` produces
`(status IN ('paid')) OR (status IS NULL)` and a NULL `status` row
matches. -/
theorem C5_null_safe_in_witness :
    ceIn (.columnName none "status" none) [.str "paid", .none] = funcOr
      (.binaryOp none (.columnName none "status" none)
        (.pyValue none
          (.list ([PyLit.str "paid", PyLit.none].filter (fun v => !v.isNone))))
        "IN" [])
      (.binaryOp none (.columnName none "status" none)
        (.pyValue none .none) "=" []) ∧
    sqlEvalB (fun _ => none)
      (ceIn (.columnName none "status" none) [.str "paid", .none])
      = some true :=
  C5_null_safe_in (.columnName none "status" none) [.str "paid", .none]
    (fun _ => none) (by decide) (by decide) rfl

/-! ## Claim C10: in_ edge cases over NULL-free iterables -/

/-- C10: `x.in_([])` returns the expression `x != None` (compiled as
`x IS NOT NULL`, satisfied by every row whose `x` is non-NULL); for a
non-empty list with no `None`, `x.in_(list)` returns
`and_(x IN values, x != None)` — the `IS NOT NULL` conjunct is always
added. -/
theorem C10_in_iterable_edges (x : ColumnExpression) (vs : List PyLit)
    (env : ColumnExpression → Option PyLit) (v : PyLit)
    (hnn : vs.any (fun w => w.isNone) = false)
    (hne : vs.isEmpty = false)
    (hx : sqlEvalVal env x = some v) :
    ceIn x [] = ColumnExpression.binaryOp none x (.pyValue none .none) "!=" [] ∧
    ceIn x vs = funcAnd
      (.binaryOp none x (.pyValue none (.list vs)) "IN" [])
      (.binaryOp none x (.pyValue none .none) "!=" []) ∧
    sqlEvalB env (ceIn x []) = some true := by
  have hmem : ∀ a ∈ vs, a.isNone = false := by
    intro a ha
    by_contra hca
    have : vs.any (fun w => w.isNone) = true :=
      List.any_eq_true.mpr ⟨a, ha, by
        cases hvc : a.isNone
        · exact absurd hvc hca
        · rfl⟩
    rw [this] at hnn
    exact Bool.noConfusion hnn
  have hf : vs.filter (fun w => !w.isNone) = vs := by
    apply List.filter_eq_self.mpr
    intro a ha
    simp [hmem a ha]
  refine ⟨rfl, ?_, ?_⟩
  · simp [ceIn, hf, hne, hnn]
  · simp [ceIn, sqlEvalB, hx]

/-- C10 witness: `column("status").in_([])` is `status != None` and a
non-NULL row satisfies it; `column("status").in_(["paid"])` is
`and_(status IN ('paid'), status != None)`. -/
theorem C10_in_iterable_edges_witness :
    ceIn (.columnName none "status" none) []
      = ColumnExpression.binaryOp none (.columnName none "status" none)
        (.pyValue none .none) "!=" [] ∧
    ceIn (.columnName none "status" none) [.str "paid"] = funcAnd
      (.binaryOp none (.columnName none "status" none)
        (.pyValue none (.list [.str "paid"])) "IN" [])
      (.binaryOp none (.columnName none "status" none)
        (.pyValue none .none) "!=" []) ∧
    sqlEvalB (fun _ => some (.str "ok"))
      (ceIn (.columnName none "status" none) []) = some true :=
  C10_in_iterable_edges (.columnName none "status" none) [.str "paid"]
    (fun _ => some (.str "ok")) (.str "ok") (by decide) (by decide) rfl

/-! ## Claim C6: week truncation on Postgres -/

/-- C6 (amended): on Postgres, `by_week` with `first_day_of_week=MONDAY`
(offset 0) compiles to the plain `date_trunc('week', ts)` — the
offset-zero dispatch never reaches `compile_week_offset` — and with
`SUNDAY` (offset 6) it compiles to
`date_trunc('week', ts - '6 days' :: interval) + '6 days' :: interval`
(note the `'{d} days' :: interval` spelling of the interval literal). -/
theorem C6_week_postgres_amended (b : SqlFrag) :
    compileGranularityPostgres "MONDAY" "week" b
      = .ok (.dateTrunc "week" b) ∧
    compileGranularityPostgres "SUNDAY" "week" b
      = .ok (.add
        (.dateTrunc "week" (.sub b (.litCol "'6 days' :: interval")))
        (.litCol "'6 days' :: interval")) :=
  ⟨rfl, rfl⟩

/-- C6 counterexample to the claim as stated: with MONDAY the emitted
expression is the bare `date_trunc('week', ts)`, not
`DATE_TRUNC('week', ts - INTERVAL '0 days') + INTERVAL '0 days'`. -/
theorem C6_week_postgres_counterexample :
    compileGranularityPostgres "MONDAY" "week" (.col "ts")
      = .ok (.dateTrunc "week" (.col "ts")) ∧
    SqlFrag.dateTrunc "week" (.col "ts")
      ≠ .add (.dateTrunc "week"
          (.sub (.col "ts") (.litCol "'0 days' :: interval")))
        (.litCol "'0 days' :: interval") :=
  ⟨rfl, by decide⟩

/-! ## Claim C7: constant folding of datetime arithmetic -/

/-- C7 (amended): preprocessing folds `datetime ± interval` and
`interval + datetime` into a literal `PyValue` holding the shifted value
computed in-process; `interval - datetime` is NOT folded. -/
theorem C7_datetime_folding_amended
    (now : PyDatetime) (l r : ColumnExpression) (msi : Option String)
    (opts : List (String × OptVal)) (lv : TsVal) (rd : DeltaVal) :
    (tryGetConstantTsValue now l = some lv →
      tryGetDatetimeDeltaValue r = some rd →
      preprocessBinaryOp now (.binaryOp msi l r "+" opts)
        = .pyValue none (lv.shift rd true) ∧
      preprocessBinaryOp now (.binaryOp msi l r "-" opts)
        = .pyValue none (lv.shift rd false)) ∧
    (tryGetDatetimeDeltaValue l = some rd →
      tryGetConstantTsValue now r = some lv →
      preprocessBinaryOp now (.binaryOp msi l r "+" opts)
        = .pyValue none (lv.shift rd true)) := by
  constructor
  · intro h1 h2
    constructor <;> simp [preprocessBinaryOp, tryLiftBinaryOp, h1, h2]
  · intro h1 h2
    have hl : tryGetConstantTsValue now l = none := by
      cases l with
      | pyValue m v =>
        cases v <;> simp_all [tryGetDatetimeDeltaValue, tryGetConstantTsValue]
      | _ => simp_all [tryGetDatetimeDeltaValue, tryGetConstantTsValue]
    simp [preprocessBinaryOp, tryLiftBinaryOp, hl, h1, h2]

/-- C7 counterexample to the claim as stated: `timedelta - datetime` has a
constant datetime on one side and a constant interval on the other, yet
preprocessing leaves the `-` node unchanged (no `PyValue` replaces it). -/
theorem C7_datetime_folding_counterexample :
    preprocessBinaryOp ⟨0⟩
      (.binaryOp none (.pyValue none (.timedelta ⟨3600000000⟩))
        (.pyValue none (.datetime ⟨0⟩)) "-" [])
      = .binaryOp none (.pyValue none (.timedelta ⟨3600000000⟩))
        (.pyValue none (.datetime ⟨0⟩)) "-" [] ∧
    (preprocessBinaryOp ⟨0⟩
      (.binaryOp none (.pyValue none (.timedelta ⟨3600000000⟩))
        (.pyValue none (.datetime ⟨0⟩)) "-" [])).isPyValueVariant = false :=
  ⟨rfl, rfl⟩

/-- C7 witness: a literal datetime plus/minus a literal timedelta folds to
the shifted literal, and `timedelta + datetime` folds too. -/
theorem C7_datetime_folding_witness :
    preprocessBinaryOp ⟨0⟩
      (.binaryOp none (.pyValue none (.datetime ⟨86400000000⟩))
        (.pyValue none (.timedelta ⟨3600000000⟩)) "+" [])
      = .pyValue none (TsVal.shift (.dt ⟨86400000000⟩) (.td ⟨3600000000⟩) true) ∧
    preprocessBinaryOp ⟨0⟩
      (.binaryOp none (.pyValue none (.datetime ⟨86400000000⟩))
        (.pyValue none (.timedelta ⟨3600000000⟩)) "-" [])
      = .pyValue none (TsVal.shift (.dt ⟨86400000000⟩) (.td ⟨3600000000⟩) false) ∧
    preprocessBinaryOp ⟨0⟩
      (.binaryOp none (.pyValue none (.timedelta ⟨3600000000⟩))
        (.pyValue none (.datetime ⟨86400000000⟩)) "+" [])
      = .pyValue none (TsVal.shift (.dt ⟨86400000000⟩) (.td ⟨3600000000⟩) true) :=
  ⟨((C7_datetime_folding_amended ⟨0⟩ (.pyValue none (.datetime ⟨86400000000⟩))
      (.pyValue none (.timedelta ⟨3600000000⟩)) none []
      (.dt ⟨86400000000⟩) (.td ⟨3600000000⟩)).1 rfl rfl).1,
   ((C7_datetime_folding_amended ⟨0⟩ (.pyValue none (.datetime ⟨86400000000⟩))
      (.pyValue none (.timedelta ⟨3600000000⟩)) none []
      (.dt ⟨86400000000⟩) (.td ⟨3600000000⟩)).1 rfl rfl).2,
   (C7_datetime_folding_amended ⟨0⟩ (.pyValue none (.timedelta ⟨3600000000⟩))
      (.pyValue none (.datetime ⟨86400000000⟩)) none []
      (.dt ⟨86400000000⟩) (.td ⟨3600000000⟩)).2 rfl rfl⟩

/-! ## Claim C8: match-steps step labels and the 62-step limit -/

theorem stepLabelsAux_err : ∀ (n start : Nat), 62 < start + n → 1 ≤ n →
    stepLabelsAux start n
      = .error (.userCompilationError "Too many unique step types to match against.")
  | 0, _, _, h1 => absurd h1 (by omega)
  | n + 1, start, h, _ => by
    have hlen : STEP_HASH_CHARS.length = 62 := rfl
    by_cases hs : STEP_HASH_CHARS.length ≤ start
    · have hstep : stepHashId start
          = .error (.userCompilationError
            "Too many unique step types to match against.") := by
        unfold stepHashId
        rw [if_pos hs]
      simp [stepLabelsAux, hstep, bind_err_p]
    · have hlt : start < STEP_HASH_CHARS.length := Nat.lt_of_not_le hs
      have hc : STEP_HASH_CHARS.get? start
          = some (STEP_HASH_CHARS.get ⟨start, hlt⟩) := List.get?_eq_get hlt
      have hstep : stepHashId start = .ok (STEP_HASH_CHARS.get ⟨start, hlt⟩) := by
        unfold stepHashId
        rw [if_neg hs, hc]
      have hrec := stepLabelsAux_err n (start + 1)
        (by omega) (by rw [hlen] at hlt; omega)
      simp [stepLabelsAux, hstep, hrec, bind_ok_p, bind_err_p]

set_option maxRecDepth 16384

/-- C8: step labels and the step limit.  An `n`-step `match_steps`
compilation labels step `i` with the character at index `i` of the ordered
alphabet `A..Z a..z 0..9` — the labels are the first `n` characters of
`STEP_HASH_CHARS` — for every `n ≤ 62`, and any compilation with more than
62 steps fails with a user-visible compilation error. -/
theorem C8_step_labels :
    (∀ n : Nat, n ≤ 62 → stepLabels n = .ok (STEP_HASH_CHARS.take n)) ∧
    (∀ n : Nat, 62 < n → stepLabels n
      = .error (.userCompilationError
        "Too many unique step types to match against.")) := by
  constructor
  · intro n hn
    interval_cases n <;> rfl
  · intro n hn
    exact stepLabelsAux_err n 0 (by omega) (by omega)

/-- C8 witness: 62 steps label fine; 63 steps fail with the user-visible
compilation error. -/
theorem C8_step_labels_witness :
    stepLabels 62 = .ok (STEP_HASH_CHARS.take 62) ∧
    stepLabels 63 = .error (.userCompilationError
      "Too many unique step types to match against.") :=
  ⟨C8_step_labels.1 62 (by decide), C8_step_labels.2 63 (by decide)⟩

end Hashquery
